import Mathlib

/-!
A verification development for the invoice-verification decision pipeline:
a shallow embedding of the matching engine, price validator, rule engine,
judge subsystem and proposal/feedback loop, together with theorems about
the documented behaviour of each component.

Conventions of the embedding:
* Python floats are modelled as rationals (ℚ).
* Database-backed lookups (price ranges, gold labels, proposal tables) are
  modelled as explicit state records passed to each operation.
* Fallible external calls (database inserts, LLM calls) are modelled as
  explicit `Except String` outcomes supplied as arguments.
-/

namespace InvoiceVerification

/-- Decisions produced by the rule engine (rules_tool.py, class Decision). -/
inductive Decision
  | ALLOW
  | DENY
  | NEEDS_MORE_INFO
deriving DecidableEq, Repr

/-- A price band row (supabase_tool.py PriceRange; rules_tool.py price cache). -/
structure PriceBand where
  min_price : ℚ
  max_price : ℚ
deriving DecidableEq, Repr

/-- Heterogeneous values stored in the facts dict built by apply_rules. -/
inductive Fact
  | num (q : ℚ)
  | int (n : ℤ)
  | str (s : String)
deriving DecidableEq, Repr

/-- rules_tool.py RuleResult. -/
structure RuleResult where
  decision : Decision
  reasons : List String
  policy_codes : List String
  facts : List (String × Fact)
  confidence : ℚ
deriving DecidableEq, Repr

/-- The database-backed state consulted by RulesTool: the
item_price_ranges cache keyed by canonical_item_id. -/
structure RulesState where
  price_ranges : String → Option PriceBand

/-- rules_tool.py RulesTool._check_vendor_exclusion.  The source is a stub
that always returns None ("would check business_rules table"). -/
def checkVendorExclusion (_vendor_id : String) : Option String := none

/-- rules_tool.py RulesTool._check_quantity_limits.  Stub returning None. -/
def checkQuantityLimits (_canonical_item_id : Option String) (_quantity : ℤ) :
    Option String := none

/-- rules_tool.py RulesTool._check_item_blacklist.  Stub returning None. -/
def checkItemBlacklist (_canonical_item_id : Option String) : Option String := none

/-- facts.get(key, 0) for a numeric fact. -/
def factNum (facts : List (String × Fact)) (key : String) : ℚ :=
  match facts.find? (fun kv => kv.1 == key) with
  | some (_, Fact.num q) => q
  | _ => 0

/-- facts.get(key, 0) for an integer fact. -/
def factInt (facts : List (String × Fact)) (key : String) : ℤ :=
  match facts.find? (fun kv => kv.1 == key) with
  | some (_, Fact.int n) => n
  | _ => 0

/-- rules_tool.py RulesTool._explain: the deterministic policy-code to
sentence mapping.  Numeric rendering abbreviates Python float formatting. -/
def explain (policy_code : String) (facts : List (String × Fact)) : String :=
  if policy_code = "NO_CANONICAL_MATCH" then
    "No matching catalog item found for this description"
  else if policy_code = "NO_PRICE_BAND" then
    "No price range data available for this item"
  else if policy_code = "PRICE_EXCEEDS_MAX_150" then
    "Price " ++ toString (factNum facts ("unit_price")) ++
      " exceeds allowed max 1.5x (cap " ++ toString (factNum facts ("max_allowed_150")) ++
      ", band max " ++ toString (factNum facts ("price_band_max")) ++ ")"
  else if policy_code = "PRICE_BELOW_MIN_50" then
    "Price " ++ toString (factNum facts ("unit_price")) ++
      " below allowed min 0.5x (floor " ++ toString (factNum facts ("min_allowed_50")) ++
      ", band min " ++ toString (factNum facts ("price_band_min")) ++ ")"
  else if ("VENDOR_EXCLUDED_BY_RULE:").isPrefixOf policy_code then
    "Vendor excluded by business rule " ++ policy_code.drop 24
  else if ("QUANTITY_OVER_LIMIT:").isPrefixOf policy_code then
    "Quantity " ++ toString (factInt facts ("quantity")) ++
      " exceeds limit defined in rule " ++ policy_code.drop 20
  else if ("BLACKLISTED_ITEM:").isPrefixOf policy_code then
    "Item blacklisted by rule " ++ policy_code.drop 17
  else
    "Policy violation: " ++ policy_code

/-- Intermediate accumulator mirroring the mutable locals of apply_rules. -/
structure RuleAcc where
  codes : List String
  facts : List (String × Fact)
  decision : Decision
  confidence : ℚ
deriving DecidableEq, Repr

/-- rules_tool.py RulesTool.apply_rules.  Rules 1/2 (canonical match and
price band) are an if/else pair, rules 3/4 (price thresholds) an if/elif
pair, rules 5-7 (vendor exclusion, quantity limit, blacklist) independent
ifs whose helper checks are stubs; a final guard resets the decision to
ALLOW when no policy code fired. -/
def applyRules (st : RulesState) (canonical_item_id : Option String) (unit_price : ℚ)
    (quantity : ℤ) (match_confidence : ℚ) (_price_is_valid : Bool)
    (_line_item_id _vendor_id : String) : RuleResult :=
  let facts0 : List (String × Fact) :=
    [("unit_price", Fact.num unit_price), ("quantity", Fact.int quantity),
     ("match_confidence", Fact.num match_confidence)]
  -- Rules 1-4
  let s1 : RuleAcc :=
    match canonical_item_id with
    | none => ⟨["NO_CANONICAL_MATCH"], facts0, Decision.NEEDS_MORE_INFO, 9/10⟩
    | some cid =>
      let facts1 := facts0 ++ [("canonical_item_id", Fact.str cid)]
      match st.price_ranges cid with
      | none => ⟨["NO_PRICE_BAND"], facts1, Decision.NEEDS_MORE_INFO, 4/5⟩
      | some band =>
        let facts2 := facts1 ++ [("price_band_min", Fact.num band.min_price),
                                 ("price_band_max", Fact.num band.max_price)]
        let max_allowed := band.max_price * (3/2)
        if unit_price > max_allowed then
          ⟨["PRICE_EXCEEDS_MAX_150"], facts2 ++ [("max_allowed_150", Fact.num max_allowed)],
           Decision.DENY, 19/20⟩
        else if band.min_price > 0 ∧ unit_price < band.min_price * (1/2) then
          ⟨["PRICE_BELOW_MIN_50"],
           facts2 ++ [("min_allowed_50", Fact.num (band.min_price * (1/2)))],
           Decision.DENY, 19/20⟩
        else
          ⟨[], facts2, Decision.ALLOW, 1⟩
  -- Rule 5: VENDOR_EXCLUDED_BY_RULE
  let s2 : RuleAcc :=
    match checkVendorExclusion _vendor_id with
    | some rule_id =>
        ⟨s1.codes ++ ["VENDOR_EXCLUDED_BY_RULE:" ++ rule_id],
         s1.facts ++ [("excluded_rule_id", Fact.str rule_id)], Decision.DENY, 1⟩
    | none => s1
  -- Rule 6: QUANTITY_OVER_LIMIT
  let s3 : RuleAcc :=
    match checkQuantityLimits canonical_item_id quantity with
    | some rule_id =>
        ⟨s2.codes ++ ["QUANTITY_OVER_LIMIT:" ++ rule_id],
         s2.facts ++ [("quantity_rule_id", Fact.str rule_id)], Decision.DENY, 1⟩
    | none => s2
  -- Rule 7: BLACKLISTED_ITEM
  let s4 : RuleAcc :=
    match checkItemBlacklist canonical_item_id with
    | some rule_id =>
        ⟨s3.codes ++ ["BLACKLISTED_ITEM:" ++ rule_id],
         s3.facts ++ [("blacklist_rule_id", Fact.str rule_id)], Decision.DENY, 1⟩
    | none => s3
  let reasons := s4.codes.map (fun code => explain code s4.facts)
  if s4.codes = [] then
    ⟨Decision.ALLOW, reasons, s4.codes, s4.facts, 1⟩
  else
    ⟨s4.decision, reasons, s4.codes, s4.facts, s4.confidence⟩

/-- Severity rank of a decision: DENY > NEEDS_MORE_INFO > ALLOW. -/
def sevRank : Decision → Nat
  | Decision.ALLOW => 0
  | Decision.NEEDS_MORE_INFO => 1
  | Decision.DENY => 2

/-- The more severe of two decisions. -/
def moreSevere (a b : Decision) : Decision :=
  if sevRank b ≤ sevRank a then a else b

/-- Most severe decision in a list, ALLOW when the list is empty. -/
def maxDecision (l : List Decision) : Decision :=
  l.foldl moreSevere Decision.ALLOW

/-- The section-4.3 condition table of the spec, read literally: each row
fires exactly when its listed condition holds, independently of the other
rows, and carries the listed severity.  (Spec-side definition used to
state claim C2 as written.) -/
def specFiredCodes (st : RulesState) (canonical_item_id : Option String)
    (unit_price : ℚ) (quantity : ℤ) (vendor_id : String) :
    List (String × Decision) :=
  (match canonical_item_id with
   | none => [("NO_CANONICAL_MATCH", Decision.NEEDS_MORE_INFO)]
   | some cid =>
     match st.price_ranges cid with
     | none => [("NO_PRICE_BAND", Decision.NEEDS_MORE_INFO)]
     | some band =>
       (if unit_price > band.max_price * (3/2) then
          [("PRICE_EXCEEDS_MAX_150", Decision.DENY)] else []) ++
       (if band.min_price > 0 ∧ unit_price < band.min_price * (1/2) then
          [("PRICE_BELOW_MIN_50", Decision.DENY)] else [])) ++
  (match checkVendorExclusion vendor_id with
   | some rule_id => [("VENDOR_EXCLUDED_BY_RULE:" ++ rule_id, Decision.DENY)]
   | none => []) ++
  (match checkQuantityLimits canonical_item_id quantity with
   | some rule_id => [("QUANTITY_OVER_LIMIT:" ++ rule_id, Decision.DENY)]
   | none => []) ++
  (match checkItemBlacklist canonical_item_id with
   | some rule_id => [("BLACKLISTED_ITEM:" ++ rule_id, Decision.DENY)]
   | none => [])

/-- The section-4.3 condition table amended to match the source: the
PRICE_BELOW_MIN_50 row is checked only when PRICE_EXCEEDS_MAX_150 did not
fire (an if/elif pair in apply_rules); everything else is unchanged. -/
def specFiredCodesAmended (st : RulesState) (canonical_item_id : Option String)
    (unit_price : ℚ) (quantity : ℤ) (vendor_id : String) :
    List (String × Decision) :=
  (match canonical_item_id with
   | none => [("NO_CANONICAL_MATCH", Decision.NEEDS_MORE_INFO)]
   | some cid =>
     match st.price_ranges cid with
     | none => [("NO_PRICE_BAND", Decision.NEEDS_MORE_INFO)]
     | some band =>
       if unit_price > band.max_price * (3/2) then
         [("PRICE_EXCEEDS_MAX_150", Decision.DENY)]
       else if band.min_price > 0 ∧ unit_price < band.min_price * (1/2) then
         [("PRICE_BELOW_MIN_50", Decision.DENY)]
       else []) ++
  (match checkVendorExclusion vendor_id with
   | some rule_id => [("VENDOR_EXCLUDED_BY_RULE:" ++ rule_id, Decision.DENY)]
   | none => []) ++
  (match checkQuantityLimits canonical_item_id quantity with
   | some rule_id => [("QUANTITY_OVER_LIMIT:" ++ rule_id, Decision.DENY)]
   | none => []) ++
  (match checkItemBlacklist canonical_item_id with
   | some rule_id => [("BLACKLISTED_ITEM:" ++ rule_id, Decision.DENY)]
   | none => [])

/-! ### Matching engine (matching_tool.py) -/

/-- Python str.lower restricted to ASCII case mapping. -/
def lowerStr (s : String) : String := ⟨s.data.map Char.toLower⟩

/-- Python str.strip: remove leading and trailing whitespace. -/
def trimStr (s : String) : String :=
  ⟨((s.data.dropWhile Char.isWhitespace).reverse.dropWhile Char.isWhitespace).reverse⟩

/-- Length of a longest common subsequence of two character lists. -/
def lcsLen : List Char → List Char → Nat
  | [], _ => 0
  | _ :: _, [] => 0
  | a :: as, b :: bs =>
    if a = b then lcsLen as bs + 1
    else max (lcsLen (a :: as) bs) (lcsLen as (b :: bs))
termination_by xs ys => xs.length + ys.length

/-- rapidfuzz.fuzz.ratio(s, t) / 100: the normalized indel (insert/delete
Levenshtein) similarity.  The indel distance equals
len(s) + len(t) - 2·LCS(s, t), so the normalized similarity is
2·LCS / (len(s) + len(t)); rapidfuzz returns 100 for two empty strings. -/
def fuzzSim (s t : List Char) : ℚ :=
  if s.length + t.length = 0 then 1
  else (2 * (lcsLen s t : ℚ)) / ((s.length : ℚ) + (t.length : ℚ))

/-- fuzzSim on strings (the arguments of rapidfuzz.fuzz.ratio). -/
def fuzzScoreStr (dc text : String) : ℚ := fuzzSim dc.data text.data

/-- supabase_tool.py CanonicalItem (description field unused by matching). -/
structure CanonicalItem where
  id : String
  name : String
  category : String
deriving DecidableEq, Repr

/-- supabase_tool.py Synonym. -/
structure Synonym where
  id : String
  canonical_item_id : String
  synonym : String
  confidence : ℚ
deriving DecidableEq, Repr

/-- A NEW_SYNONYM proposal payload created by the fuzzy matcher
(matching_tool.py, proposal_payload dict). -/
structure Proposal where
  ptype : String
  canonical_item_id : String
  synonym : String
  confidence : ℚ
  original_description_length : Nat
deriving DecidableEq, Repr

/-- matching_tool.py MatchResult.  The proposal_id of the source is
modelled by carrying the created proposal itself. -/
structure MatchResult where
  canonical_item_id : Option String
  canonical_name : Option String
  confidence : ℚ
  match_type : String
  proposal : Option Proposal
deriving DecidableEq, Repr

/-- The dict {item.id: item} built from the canonical-item list; on
duplicate ids the last row wins, as in a Python dict comprehension. -/
def lookupItem (items : List CanonicalItem) (cid : String) : Option CanonicalItem :=
  items.reverse.find? (fun it => it.id == cid)

/-- matching_tool.py MatchingTool._try_exact_match. -/
def tryExactMatch (items : List CanonicalItem) (description_clean : String) :
    Option MatchResult :=
  (items.find? (fun it => trimStr (lowerStr it.name) == description_clean)).map
    (fun it => ⟨some it.id, some it.name, 1, "exact", none⟩)

/-- matching_tool.py MatchingTool._try_synonym_match: first synonym whose
normalized text equals the description and whose canonical id resolves. -/
def trySynonymMatch (items : List CanonicalItem) (syns : List Synonym)
    (description_clean : String) : Option MatchResult :=
  syns.findSome? (fun sy =>
    if trimStr (lowerStr sy.synonym) == description_clean then
      (lookupItem items sy.canonical_item_id).map
        (fun it => ⟨some sy.canonical_item_id, some it.name, sy.confidence, "synonym", none⟩)
    else none)

/-- Loop body of the canonical-item scan in _try_fuzzy_match. -/
def itemStep (description_clean : String) (st : ℚ × Option CanonicalItem)
    (it : CanonicalItem) : ℚ × Option CanonicalItem :=
  let score := fuzzScoreStr description_clean (lowerStr it.name)
  if score > st.1 then (score, some it) else st

/-- Loop body of the synonym scan in _try_fuzzy_match: a synonym updates
the best candidate only when its canonical id resolves. -/
def synStep (items : List CanonicalItem) (description_clean : String)
    (st : ℚ × Option CanonicalItem) (sy : Synonym) : ℚ × Option CanonicalItem :=
  let score := fuzzScoreStr description_clean (lowerStr sy.synonym)
  if score > st.1 then
    match lookupItem items sy.canonical_item_id with
    | some it => (score, some it)
    | none => st
  else st

/-- matching_tool.py MatchingTool._try_fuzzy_match: best strict-improvement
scan over canonical names then synonym texts (a synonym only updates the
best when its canonical id resolves), a NEW_SYNONYM proposal when the best
score lies in [0.75, 0.85], and a fuzzy result only when it is ≥ 0.6. -/
def tryFuzzyMatch (items : List CanonicalItem) (syns : List Synonym)
    (description_clean : String) : Option MatchResult × List Proposal :=
  let st1 : ℚ × Option CanonicalItem :=
    items.foldl (itemStep description_clean) (0, none)
  let st2 : ℚ × Option CanonicalItem :=
    syns.foldl (synStep items description_clean) st1
  let props : List Proposal :=
    match st2.2 with
    | some it =>
      if 3/4 ≤ st2.1 ∧ st2.1 ≤ 17/20 then
        [⟨"NEW_SYNONYM", it.id, description_clean, st2.1, description_clean.length⟩]
      else []
    | none => []
  if st2.1 ≥ 3/5 then
    match st2.2 with
    | some it => (some ⟨some it.id, some it.name, st2.1, "fuzzy", props.head?⟩, props)
    | none => (none, props)
  else (none, props)

/-- matching_tool.py MatchingTool.match_item: exact → synonym → fuzzy →
none, on the normalized (strip + lower) description; proposals created by
the fuzzy stage are returned alongside the result. -/
def matchItem (items : List CanonicalItem) (syns : List Synonym)
    (description : String) : MatchResult × List Proposal :=
  let dc := lowerStr (trimStr description)
  match tryExactMatch items dc with
  | some r => (r, [])
  | none =>
    match trySynonymMatch items syns dc with
    | some r => (r, [])
    | none =>
      match tryFuzzyMatch items syns dc with
      | (some r, props) => (r, props)
      | (none, props) => (⟨none, none, 0, "none", none⟩, props)

/-- The canonical-item part of the candidate pool scanned by the fuzzy
stage: every canonical name (lowered) paired with its item. -/
def itemCands (items : List CanonicalItem) : List (String × CanonicalItem) :=
  items.map (fun it => (lowerStr it.name, it))

/-- The synonym part of the candidate pool: synonym texts paired with the
item their canonical id resolves to; dangling synonyms are dropped. -/
def synCands (items : List CanonicalItem) (syns : List Synonym) :
    List (String × CanonicalItem) :=
  syns.filterMap (fun sy => (lookupItem items sy.canonical_item_id).map
    (fun it => (lowerStr sy.synonym, it)))

/-- The full candidate pool of the fuzzy stage, in scan order. -/
def fuzzyCandidates (items : List CanonicalItem) (syns : List Synonym) :
    List (String × CanonicalItem) :=
  itemCands items ++ synCands items syns

/-- Score of a candidate: rapidfuzz ratio between the description and the
candidate text. -/
def fuzzCandScore (description_clean : String) (c : String × CanonicalItem) : ℚ :=
  fuzzScoreStr description_clean c.1

/-- Generic strict-improvement argmax fold (the loop shape of
_try_fuzzy_match). -/
def runBest {α : Type} (f : α → ℚ) (l : List α) (init : ℚ × Option α) :
    ℚ × Option α :=
  l.foldl (fun st x => if f x > st.1 then (f x, some x) else st) init

/-- Maximum of the scores of a list, starting from a. -/
def maxScore {α : Type} (f : α → ℚ) (l : List α) (a : ℚ) : ℚ :=
  l.foldl (fun m x => max m (f x)) a

/-- The MatchResult produced for the first candidate attaining the best
fuzzy score M. -/
def fuzzyResultOf (dc : String) (m : ℚ) (c : String × CanonicalItem) : MatchResult :=
  ⟨some c.2.id, some c.2.name, m, "fuzzy",
   if 3/4 ≤ m ∧ m ≤ 17/20 then some ⟨"NEW_SYNONYM", c.2.id, dc, m, dc.length⟩ else none⟩

/-- The NEW_SYNONYM proposal produced for the winning candidate. -/
def fuzzyProposalOf (dc : String) (m : ℚ) (c : String × CanonicalItem) : Proposal :=
  ⟨"NEW_SYNONYM", c.2.id, dc, m, dc.length⟩

/-- Whitespace tokenizer (helper for the spec-side token-set ratio). -/
def splitWsAux : List Char → List Char → List String
  | [], acc => if acc = [] then [] else [String.mk acc.reverse]
  | c :: cs, acc =>
    if c.isWhitespace then
      (if acc = [] then [] else [String.mk acc.reverse]) ++ splitWsAux cs []
    else splitWsAux cs (c :: acc)

/-- Token set of a string: whitespace-separated words, deduplicated. -/
def tokensOf (s : String) : List String := (splitWsAux s.data []).dedup

/-- Modelled from the spec: "compute a token-set similarity ratio
(order-insensitive token overlap, e.g. Jaccard-like token-set ratio in
[0,1])".  Jaccard similarity of the two token sets, 1 when both are empty.
This is the similarity the spec claims the fuzzy stage uses; the source
uses rapidfuzz.fuzz.ratio instead. -/
def tokenSetRatio (a b : String) : ℚ :=
  let ta := tokensOf a
  let tb := tokensOf b
  if ta = [] ∧ tb = [] then 1
  else ((ta.filter tb.contains).length : ℚ) / ((ta.union tb).length : ℚ)


/-! ### Price validator (pricing_tool.py) -/

/-- The PRICE_RANGE_ADJUST proposal payload built by validate_price. -/
structure PriceProposal where
  canonical_item_id : String
  old_range : ℚ × ℚ
  new_range : ℚ × ℚ
  reason : String
  variance_percent : ℚ
  triggering_price : ℚ
deriving DecidableEq, Repr

/-- pricing_tool.py PriceValidationResult.  The proposal_id of the source
is modelled by carrying the created proposal itself. -/
structure PriceValidationResult where
  is_valid : Bool
  canonical_item_id : Option String
  unit_price : ℚ
  expected_range : Option (ℚ × ℚ)
  variance_percent : Option ℚ
  proposal : Option PriceProposal
deriving DecidableEq, Repr

/-- The database-backed state consulted by PricingTool: the price-range
cache keyed by canonical_item_id. -/
structure PricingState where
  price_ranges : String → Option PriceBand

/-- pricing_tool.py PricingTool.validate_price: permissive when no
canonical item or no range is on file; otherwise in-band check, relative
variance outside the band, and a PRICE_RANGE_ADJUST proposal with a 5%
buffer when the variance exceeds the 0.20 threshold. -/
def validatePrice (st : PricingState) (canonical_item_id : Option String)
    (unit_price : ℚ) (_line_item_id : String) : PriceValidationResult :=
  match canonical_item_id with
  | none => ⟨true, none, unit_price, none, none, none⟩
  | some cid =>
    match st.price_ranges cid with
    | none => ⟨true, some cid, unit_price, none, none, none⟩
    | some r =>
      let min_price := r.min_price
      let max_price := r.max_price
      let is_within_range := decide (min_price ≤ unit_price ∧ unit_price ≤ max_price)
      let variance_percent : ℚ :=
        if unit_price < min_price then (min_price - unit_price) / min_price
        else if unit_price > max_price then (unit_price - max_price) / max_price
        else 0
      let proposal : Option PriceProposal :=
        if variance_percent > 1/5 then
          if unit_price < min_price then
            some ⟨cid, (min_price, max_price), (unit_price * (19/20), max_price),
              "Price " ++ toString unit_price ++ " below current min " ++
                toString min_price,
              variance_percent, unit_price⟩
          else
            some ⟨cid, (min_price, max_price), (min_price, unit_price * (21/20)),
              "Price " ++ toString unit_price ++ " above current max " ++
                toString max_price,
              variance_percent, unit_price⟩
        else none
      ⟨is_within_range, some cid, unit_price, some (min_price, max_price),
       some variance_percent, proposal⟩


/-! ### Judge subsystem (judges.py) -/

/-- Python str.upper restricted to ASCII case mapping. -/
def upperStr (s : String) : String := ⟨s.data.map Char.toUpper⟩

/-- Substring test on character lists (Python `needle in hay`). -/
def isSubList (needle : List Char) : List Char → Bool
  | [] => needle.isEmpty
  | c :: rest => needle.isPrefixOf (c :: rest) || isSubList needle rest

/-- Collapse every whitespace run to a single space
(re.sub of one-or-more whitespace in stable_fingerprint). -/
def squashSpaces : List Char → List Char
  | [] => []
  | c :: cs =>
    if c.isWhitespace then ' ' :: squashSpaces (cs.dropWhile Char.isWhitespace)
    else c :: squashSpaces cs
termination_by l => l.length
decreasing_by
  · simp only [List.length_cons]
    exact Nat.lt_succ_of_le (List.dropWhile_sublist Char.isWhitespace).length_le
  · simp only [List.length_cons]
    omega

/-- judges.py stable_fingerprint.  The SHA-256 digest is abstracted away:
the model returns the hashed content itself (the normalized description,
a separator, and the vendor id). -/
def stableFingerprint (description vendor_id : String) : String :=
  String.mk (squashSpaces (trimStr (lowerStr description)).data) ++ "||" ++ vendor_id

/-- judges.py GoldLabel. -/
structure GoldLabel where
  expected_decision : String
  expected_canonical_id : Option String
  expected_policy_codes : List String
  note : Option String
deriving DecidableEq, Repr

/-- The database-backed state consulted by DeterministicJudge: the
agent_golden_labels table keyed by line-item fingerprint. -/
structure JudgeState where
  gold : String → Option GoldLabel

/-- judges.py DeterministicJudge.score_decision: 1 if the decision matches
gold, 0 if not, None if no gold label. -/
def scoreDecision (st : JudgeState) (actual_decision : String)
    (fingerprint : String) : Option ℚ :=
  match st.gold fingerprint with
  | none => none
  | some gold => some (if actual_decision = gold.expected_decision then 1 else 0)

/-- judges.py DeterministicJudge.score_policy: Jaccard similarity of the
predicted and expected policy-code sets (1 when both are empty), None when
no gold label.  Python sets are modelled by deduplicated lists. -/
def scorePolicy (st : JudgeState) (policy_codes : List String)
    (fingerprint : String) : Option ℚ :=
  match st.gold fingerprint with
  | none => none
  | some gold =>
    let actual_set := policy_codes.dedup
    let expected_set := gold.expected_policy_codes.dedup
    if actual_set.length = 0 ∧ expected_set.length = 0 then some 1
    else
      let inter := actual_set.filter (fun c => expected_set.contains c)
      let union := actual_set.union expected_set
      if union.length > 0 then some ((inter.length : ℚ) / (union.length : ℚ))
      else some 1

/-- judges.py DeterministicJudge.score_match: exact identity of predicted
and expected canonical id (including both absent), None if no gold. -/
def scoreMatch (st : JudgeState) (canonical_item_id : Option String)
    (fingerprint : String) : Option ℚ :=
  match st.gold fingerprint with
  | none => none
  | some gold => some (if canonical_item_id = gold.expected_canonical_id then 1 else 0)

/-- judges.py DeterministicJudge.score_price_check: re-derives the
expected price policy codes from the same thresholds as the rule engine
and checks consistency; None only when no price band is available. -/
def scorePriceCheck (unit_price : ℚ) (price_band : Option PriceBand)
    (decision : String) (policy_codes : List String) : Option ℚ :=
  match price_band with
  | none => none
  | some band =>
    let max_allowed := band.max_price * (3/2)
    let min_allowed := if band.min_price > 0 then band.min_price * (1/2) else 0
    let expected_codes : List String :=
      if unit_price > max_allowed then ["PRICE_EXCEEDS_MAX_150"]
      else if band.min_price > 0 ∧ unit_price < min_allowed then ["PRICE_BELOW_MIN_50"]
      else []
    let actual_price_codes := policy_codes.filter (fun code =>
      code == "PRICE_EXCEEDS_MAX_150" || code == "PRICE_BELOW_MIN_50")
    if expected_codes ≠ [] then
      some (if decision = "DENY" ∧
          actual_price_codes.toFinset = expected_codes.toFinset then 1 else 0)
    else
      some (if actual_price_codes.length > 0 then 0 else 1)

/-- judges.py DeterministicJudge.verdict: minimum of the present
(non-None) scores; < 0.6 FAIL, < 0.8 WARN, else PASS; PASS when no score
is present. -/
def verdict (scores : List (Option ℚ)) : String :=
  let present_scores := scores.filterMap id
  match present_scores with
  | [] => "PASS"
  | h :: t =>
    let min_score := t.foldl min h
    if min_score < 3/5 then "FAIL"
    else if min_score < 4/5 then "WARN"
    else "PASS"

/-- judges.py ExplanationJudge._score_with_heuristics: sequential
accumulation of the four heuristic contributions, capped at 1. -/
def scoreWithHeuristics (text : String) (policy_codes : List String) : ℚ :=
  if text = "" then 0
  else
    let score : ℚ := 0
    let length := (trimStr text).length
    let score := if 30 ≤ length ∧ length ≤ 300 then score + 2/5
      else if length > 10 then score + 1/5
      else score
    let text_upper := upperStr text
    let referenced_codes := (policy_codes.filter (fun code =>
      isSubList code.data text_upper.data)).length
    let score := if referenced_codes > 0 then score + 3/10 else score
    let has_numeric := text.data.any Char.isDigit
    let score := if has_numeric then score + 1/5 else score
    let has_sentence_structure :=
      text.data.contains ('.') || text.data.contains ('!') || text.data.contains ('?')
    let score := if has_sentence_structure then score + 1/10 else score
    min score 1

/-- Modelled from the spec (claim C9 wording): sum, capped at 1, of
exactly the four listed contributions, with no length contribution outside
[30, 300]. -/
def claimHeuristicScore (text : String) (policy_codes : List String) : ℚ :=
  min
    ((if 30 ≤ (trimStr text).length ∧ (trimStr text).length ≤ 300 then (2:ℚ)/5 else 0) +
     (if (policy_codes.filter (fun code =>
          isSubList code.data (upperStr text).data)).length > 0 then (3:ℚ)/10 else 0) +
     (if text.data.any Char.isDigit then (1:ℚ)/5 else 0) +
     (if text.data.contains ('.') || text.data.contains ('!') ||
        text.data.contains ('?') then (1:ℚ)/10 else 0)) 1

/-- The heuristic score as the code actually computes it, written as a
closed-form sum: like claimHeuristicScore but with the extra 0.2 tier for
lengths over 10 outside [30, 300] and 0 for empty text. -/
def amendedHeuristicScore (text : String) (policy_codes : List String) : ℚ :=
  if text = "" then 0
  else
    min
      ((if 30 ≤ (trimStr text).length ∧ (trimStr text).length ≤ 300 then (2:ℚ)/5
        else if 10 < (trimStr text).length then (1:ℚ)/5 else 0) +
       (if (policy_codes.filter (fun code =>
            isSubList code.data (upperStr text).data)).length > 0 then (3:ℚ)/10 else 0) +
       (if text.data.any Char.isDigit then (1:ℚ)/5 else 0) +
       (if text.data.contains ('.') || text.data.contains ('!') ||
          text.data.contains ('?') then (1:ℚ)/10 else 0)) 1

/-- judges.py ExplanationJudge.score_explanation: heuristics when the LLM
is disabled; otherwise the (clamped) LLM score with heuristic fallback on
any provider failure.  The LLM call is an external collaborator, modelled
by its outcome. -/
def scoreExplanation (use_llm : Bool) (llm_outcome : Except String ℚ)
    (text : String) (policy_codes : List String) : ℚ :=
  if use_llm then
    match llm_outcome with
    | Except.ok s => max 0 (min 1 s)
    | Except.error _ => scoreWithHeuristics text policy_codes
  else scoreWithHeuristics text policy_codes

/-- Dict access decision_data[key]: raises KeyError when absent. -/
def dictGet {α : Type} (field : Option α) (key : String) : Except String α :=
  match field with
  | some v => Except.ok v
  | none => Except.error ("KeyError: " ++ key)

/-- The decision_data dict passed to judge_line_item (keys may be absent). -/
structure DecisionData where
  decision : Option String
  policy_codes : Option (List String)
  canonical_item_id : Option (Option String)
  reasons : Option (List String)
deriving DecidableEq, Repr

/-- The judgement returned to the caller: the non-None scores and the
verdict. -/
structure JudgementOut where
  scores : List (String × ℚ)
  verdict : String
deriving DecidableEq, Repr

/-- Configuration and state of JudgeRunner. -/
structure JudgeEnv where
  enabled : Bool
  use_llm : Bool
  dry_run : Bool
  judge : JudgeState

/-- supabase_tool.py SupabaseTool.log_event: skips the insert in dry-run
mode and swallows every failure of the insert ("fail silently for logging
to avoid breaking main flow"). -/
def logEvent (dry_run : Bool) (insert_outcome : Except String Unit) :
    Except String Unit :=
  match (if dry_run then Except.ok () else insert_outcome) with
  | Except.ok _ => Except.ok ()
  | Except.error _ => Except.ok ()

/-- judges.py JudgeRunner._generate_comments. -/
def generateComments (scores : List (String × Option ℚ)) (verdict_str : String)
    (gold : Option GoldLabel) : String :=
  let comments : List String :=
    (if gold.isNone then ["No gold label available for comparison"] else []) ++
    ((let failing := scores.filter (fun kv => match kv.2 with
        | some s => decide (s < 3/5)
        | none => false)
      if failing ≠ [] then
        ["Low scores: " ++ String.intercalate (", ") (failing.map Prod.fst)]
      else [])) ++
    (if verdict_str = "PASS" ∧ gold.isSome then ["All available criteria met"] else [])
  if comments ≠ [] then String.intercalate ("; ") comments else lowerStr verdict_str

/-- The body of the try block of judges.py JudgeRunner.judge_line_item:
fingerprint, dict accesses (which may raise), the five scores, verdict,
comments, and the judgement insert (whose outcome is supplied). -/
def judgeLineItemCore (env : JudgeEnv) (dd : DecisionData)
    (description vendor_id : String) (unit_price : ℚ)
    (price_band : Option PriceBand) (llm_outcome : Except String ℚ)
    (insert_outcome : Except String Unit) : Except String JudgementOut := do
  let fingerprint := stableFingerprint description vendor_id
  let decision ← dictGet dd.decision ("decision")
  let policy_codes ← dictGet dd.policy_codes ("policy_codes")
  let canonical_item_id ← dictGet dd.canonical_item_id ("canonical_item_id")
  let reasons ← dictGet dd.reasons ("reasons")
  let scores0 : List (String × Option ℚ) :=
    [("decision_correct", scoreDecision env.judge decision fingerprint),
     ("policy_justified", scorePolicy env.judge policy_codes fingerprint),
     ("match_correct", scoreMatch env.judge canonical_item_id fingerprint),
     ("price_check_correct", scorePriceCheck unit_price price_band decision policy_codes)]
  let reason_text := String.intercalate (" ") reasons
  let scores := scores0 ++ [("reason_quality",
    if reason_text ≠ "" then
      some (scoreExplanation env.use_llm llm_outcome reason_text policy_codes)
    else none)]
  let verdict_str := verdict (scores.map Prod.snd)
  let gold := env.judge.gold fingerprint
  let _comments := generateComments scores verdict_str gold
  let _ ← insert_outcome
  pure ⟨scores.filterMap (fun kv => kv.2.map (fun v => (kv.1, v))), verdict_str⟩

/-- judges.py JudgeRunner.judge_line_item: None when judging is disabled;
otherwise the try body with a catch-all handler that logs (log_event
swallows its own failures) and returns None. -/
def judgeLineItem (env : JudgeEnv) (dd : DecisionData)
    (description vendor_id : String) (unit_price : ℚ)
    (price_band : Option PriceBand) (llm_outcome : Except String ℚ)
    (insert_outcome : Except String Unit) (log_outcome : Except String Unit) :
    Except String (Option JudgementOut) :=
  if !env.enabled then Except.ok none
  else
    match judgeLineItemCore env dd description vendor_id unit_price price_band
        llm_outcome insert_outcome with
    | Except.ok j => Except.ok (some j)
    | Except.error _ =>
      match logEvent env.dry_run log_outcome with
      | Except.ok _ => Except.ok none
      | Except.error e => Except.error e

/-- A line-item decision record as held by crew_runner. -/
structure LineDecision where
  decision : String
  judgement : Option JudgementOut
deriving DecidableEq, Repr

/-- crew_runner.py run_crew judging step: the judgement is attached to the
decision only when judge_line_item returned one; otherwise the decision is
left unchanged. -/
def attachJudgement (d : LineDecision) (j : Option JudgementOut) : LineDecision :=
  match j with
  | some jr => { d with judgement := some jr }
  | none => d

/-- Modelled from the spec (section 4.5): Jaccard similarity between the
predicted and expected policy-code sets, 1 when both are empty.  Python
sets are modelled by deduplicated lists. -/
def jaccardQ (a b : List String) : ℚ :=
  if a.dedup = [] ∧ b.dedup = [] then 1
  else ((a.dedup.filter (fun c => b.dedup.contains c)).length : ℚ) /
    ((a.dedup.union b.dedup).length : ℚ)


/-! ### Proposal / feedback loop (_api/feedback.py) -/

/-- A proposal payload dict (keys may be absent; conditions/actions of
NEW_RULE payloads are opaque). -/
structure PayloadDict where
  canonical_item_id : Option String
  synonym : Option String
  confidence : Option ℚ
  new_range : Option (ℚ × ℚ)
  name : Option String
  rule_type : Option String
  conditions : Option Unit
  actions : Option Unit
deriving DecidableEq, Repr

/-- A row of the agent_proposals table. -/
structure ProposalRow where
  id : String
  proposal_type : String
  payload : PayloadDict
  status : String
  approved_by : Option String
deriving DecidableEq, Repr

/-- A row of the synonyms table. -/
structure SynonymRow where
  id : String
  canonical_item_id : String
  synonym : String
  confidence : ℚ
deriving DecidableEq, Repr

/-- A row of the item_price_ranges table. -/
structure PriceRangeRow where
  canonical_item_id : String
  min_price : ℚ
  max_price : ℚ
deriving DecidableEq, Repr

/-- The catalog-store tables touched by the feedback handler, plus a
counter generating fresh row ids. -/
structure FeedbackDB where
  proposals : List ProposalRow
  synonyms : List SynonymRow
  price_ranges : List PriceRangeRow
  rules : List (String × String)
  canonical_items : List (String × String)
  next_id : Nat
deriving DecidableEq, Repr

/-- Feedback handler configuration flags (AGENT_DRY_RUN,
ALLOW_APPROVE_IN_DRY_RUN). -/
structure FeedbackConfig where
  dry_run : Bool
  allow_approve_in_dry_run : Bool
deriving DecidableEq, Repr

/-- The structured result of applying one proposal. -/
inductive ApplyOutcome
  | synonymExists (synonym_id : String)
  | synonymCreated (synonym_id : String) (syn : String)
  | priceRangeApplied (created : Bool) (canonical_item_id : String) (new_range : ℚ × ℚ)
  | ruleCreated (rule_id : String) (rule_type : String)
  | canonicalCreated (canonical_item_id : String) (name : String)
  | applyFailed (msg : String)
  | unsupportedType (t : String)
deriving DecidableEq, Repr

/-- Whether the apply step ran or was skipped by the dry-run gate. -/
inductive ApplicationResult
  | applied (r : ApplyOutcome)
  | skippedDryRun
deriving DecidableEq, Repr

/-- The structured result of _handle_proposal_approval. -/
inductive ApprovalOutcome
  | notFound (proposal_id : String)
  | alreadyProcessed (current_status : String) (proposal_id : String)
  | approved (proposal_id : String) (ptype : String)
      (application : ApplicationResult)
deriving DecidableEq, Repr

/-- feedback.py FeedbackHandler._apply_new_synonym: idempotent upsert
keyed by (canonical_item_id, synonym); reports already_exists when the
synonym is on file. -/
def applyNewSynonym (db : FeedbackDB) (payload : PayloadDict) :
    Except String (ApplyOutcome × FeedbackDB) := do
  let cid ← dictGet payload.canonical_item_id ("canonical_item_id")
  let syn ← dictGet payload.synonym ("synonym")
  let confidence := payload.confidence.getD 1
  match db.synonyms.find? (fun r => r.canonical_item_id == cid && r.synonym == syn) with
  | some row => Except.ok (ApplyOutcome.synonymExists row.id, db)
  | none =>
    let new_id := "syn-" ++ toString db.next_id
    Except.ok (ApplyOutcome.synonymCreated new_id syn,
      { db with synonyms := db.synonyms ++ [⟨new_id, cid, syn, confidence⟩],
                next_id := db.next_id + 1 })

/-- feedback.py FeedbackHandler._apply_price_range_adjust:
update-if-exists else insert, keyed by canonical_item_id. -/
def applyPriceRangeAdjust (db : FeedbackDB) (payload : PayloadDict) :
    Except String (ApplyOutcome × FeedbackDB) := do
  let cid ← dictGet payload.canonical_item_id ("canonical_item_id")
  let new_range ← dictGet payload.new_range ("new_range")
  if db.price_ranges.any (fun r => r.canonical_item_id == cid) then
    Except.ok (ApplyOutcome.priceRangeApplied false cid new_range,
      { db with price_ranges := db.price_ranges.map (fun r =>
          if r.canonical_item_id == cid then ⟨cid, new_range.1, new_range.2⟩ else r) })
  else
    Except.ok (ApplyOutcome.priceRangeApplied true cid new_range,
      { db with price_ranges := db.price_ranges ++ [⟨cid, new_range.1, new_range.2⟩] })

/-- feedback.py FeedbackHandler._apply_new_rule: validates the required
payload fields (raising on a missing one) then inserts. -/
def applyNewRule (db : FeedbackDB) (payload : PayloadDict) :
    Except String (ApplyOutcome × FeedbackDB) := do
  let rule_type ← dictGet payload.rule_type ("rule_type")
  let _ ← dictGet payload.conditions ("conditions")
  let _ ← dictGet payload.actions ("actions")
  let new_id := "rule-" ++ toString db.next_id
  Except.ok (ApplyOutcome.ruleCreated new_id rule_type,
    { db with rules := db.rules ++ [(new_id, rule_type)], next_id := db.next_id + 1 })

/-- feedback.py FeedbackHandler._apply_new_canonical: plain insert. -/
def applyNewCanonical (db : FeedbackDB) (payload : PayloadDict) :
    Except String (ApplyOutcome × FeedbackDB) := do
  let name ← dictGet payload.name ("name")
  let new_id := "item-" ++ toString db.next_id
  Except.ok (ApplyOutcome.canonicalCreated new_id name,
    { db with canonical_items := db.canonical_items ++ [(new_id, name)],
              next_id := db.next_id + 1 })

/-- feedback.py FeedbackHandler._apply_proposal: dispatch on the proposal
type, with a catch-all turning any exception into an error result (the
database state is unchanged in that case, since the payload accesses
precede every write). -/
def applyProposal (db : FeedbackDB) (p : ProposalRow) : ApplyOutcome × FeedbackDB :=
  let r : Except String (ApplyOutcome × FeedbackDB) :=
    if p.proposal_type = "NEW_SYNONYM" then applyNewSynonym db p.payload
    else if p.proposal_type = "PRICE_RANGE_ADJUST" then applyPriceRangeAdjust db p.payload
    else if p.proposal_type = "NEW_RULE" then applyNewRule db p.payload
    else if p.proposal_type = "NEW_CANONICAL" then applyNewCanonical db p.payload
    else Except.ok (ApplyOutcome.unsupportedType p.proposal_type, db)
  match r with
  | Except.ok v => v
  | Except.error e => (ApplyOutcome.applyFailed e, db)

/-- The proposal-table update of the approval step: mark the row with the
given id APPROVED (the approved_at timestamp is abstracted away). -/
def approveUpd (proposal_id approved_by : String) (q : ProposalRow) : ProposalRow :=
  if q.id == proposal_id then
    { q with status := "APPROVED", approved_by := some approved_by }
  else q

/-- feedback.py FeedbackHandler._handle_proposal_approval: fetch, the
already-processed early return for non-PENDING proposals, the APPROVED
mark, and the apply step gated by (not dry_run) or
allow_approve_in_dry_run. -/
def handleProposalApproval (cfg : FeedbackConfig) (db : FeedbackDB)
    (proposal_id approved_by : String) : ApprovalOutcome × FeedbackDB :=
  match db.proposals.find? (fun p => p.id == proposal_id) with
  | none => (ApprovalOutcome.notFound proposal_id, db)
  | some p =>
    if p.status ≠ "PENDING" then
      (ApprovalOutcome.alreadyProcessed p.status proposal_id, db)
    else
      let db1 :=
        { db with proposals := db.proposals.map (approveUpd proposal_id approved_by) }
      let should_apply := (!cfg.dry_run) || cfg.allow_approve_in_dry_run
      if should_apply then
        let applied := applyProposal db1 p
        (ApprovalOutcome.approved proposal_id p.proposal_type
          (ApplicationResult.applied applied.1), applied.2)
      else
        (ApprovalOutcome.approved proposal_id p.proposal_type
          ApplicationResult.skippedDryRun, db1)

/-- Whether an approval outcome reports already_exists (the NEW_SYNONYM
apply step found the synonym on file). -/
def reportsAlreadyExists : ApprovalOutcome → Bool
  | ApprovalOutcome.approved _ _
      (ApplicationResult.applied (ApplyOutcome.synonymExists _)) => true
  | _ => false

/-! ### Concrete states used by counterexamples and witnesses -/

/-- A rules state holding a single (degenerate) price band in which
min_price exceeds three times max_price, as flagged by the safety-scan
job (band anomalies with min_price at or above max_price). -/
def stDegenerate : RulesState :=
  ⟨fun cid => if cid = "item-1" then some ⟨100, 10⟩ else none⟩

/-- A pricing state with one well-formed band [100, 200]. -/
def stBand : PricingState :=
  ⟨fun cid => if cid = "item-1" then some ⟨100, 200⟩ else none⟩

/-- A judge state with a single gold label under fingerprint "fp-1". -/
def stGold : JudgeState :=
  ⟨fun fp => if fp = "fp-1" then some ⟨"ALLOW", some ("1"), [], none⟩ else none⟩

/-- A NEW_SYNONYM payload proposing synonym "ab" for canonical item 1. -/
def payloadSyn : PayloadDict :=
  ⟨some ("1"), some ("ab"), some 1, none, none, none, none, none⟩

/-- A database whose only proposal is already APPROVED and whose synonym
is already on file. -/
def dbApproved : FeedbackDB :=
  ⟨[⟨"p1", "NEW_SYNONYM", payloadSyn, "APPROVED", some ("u")⟩],
   [⟨"s1", "1", "ab", 1⟩], [], [], [], 0⟩

/-- A database whose only proposal is PENDING. -/
def dbPending : FeedbackDB :=
  ⟨[⟨"p1", "NEW_SYNONYM", payloadSyn, "PENDING", none⟩], [], [], [], [], 0⟩

/-- A catalog with one two-token canonical name, for the token-set
counterexample. -/
def itemsTok : List CanonicalItem := [⟨"1", "a b", ""⟩]

/-- A catalog with one canonical item whose name is close to (but not
equal to) the witness description. -/
def itemsW : List CanonicalItem := [⟨"1", "abc", ""⟩]

/-- The NEW_SYNONYM proposal created for description "ab" against the
itemsW catalog (fuzzy score 4/5 lies in the medium-confidence band). -/
def prW : Proposal := ⟨"NEW_SYNONYM", "1", "ab", 4/5, 2⟩

/-! ## Theorems -/

/-! ### Helper lemmas about the fuzzy similarity and the argmax scan -/

lemma lcsLen_le_left (s t : List Char) : lcsLen s t ≤ s.length := by
  induction s, t using lcsLen.induct with
  | case1 t => simp [lcsLen]
  | case2 a as => simp [lcsLen]
  | case3 as b bs ih =>
    simp [lcsLen]
    omega
  | case4 a as b bs h ih1 ih2 =>
    simp only [lcsLen, if_neg h, List.length_cons]
    refine max_le ih1 (le_trans ih2 ?_)
    simp

lemma lcsLen_le_right (s t : List Char) : lcsLen s t ≤ t.length := by
  induction s, t using lcsLen.induct with
  | case1 t => simp [lcsLen]
  | case2 a as => simp [lcsLen]
  | case3 as b bs ih =>
    simp [lcsLen]
    omega
  | case4 a as b bs h ih1 ih2 =>
    simp only [lcsLen, if_neg h, List.length_cons]
    refine max_le (le_trans ih1 ?_) ih2
    simp

lemma fuzzSim_nonneg (s t : List Char) : 0 ≤ fuzzSim s t := by
  unfold fuzzSim
  split
  · norm_num
  · positivity

lemma fuzzSim_le_one (s t : List Char) : fuzzSim s t ≤ 1 := by
  unfold fuzzSim
  split
  · norm_num
  · rename_i h
    have hpos : (0 : ℚ) < (s.length : ℚ) + (t.length : ℚ) := by
      have hsum : 0 < s.length + t.length := Nat.pos_of_ne_zero h
      exact_mod_cast hsum
    rw [div_le_one hpos]
    have h1q : ((lcsLen s t : ℚ)) ≤ (s.length : ℚ) := by
      exact_mod_cast lcsLen_le_left s t
    have h2q : ((lcsLen s t : ℚ)) ≤ (t.length : ℚ) := by
      exact_mod_cast lcsLen_le_right s t
    linarith

lemma le_maxScore {α : Type} (f : α → ℚ) (l : List α) (a : ℚ) :
    a ≤ maxScore f l a := by
  induction l generalizing a with
  | nil => simp [maxScore]
  | cons x t ih =>
    simp only [maxScore, List.foldl_cons]
    exact le_trans (le_max_left a (f x)) (ih (max a (f x)))

lemma maxScore_cons {α : Type} (f : α → ℚ) (x : α) (t : List α) (a : ℚ) :
    maxScore f (x :: t) a = maxScore f t (max a (f x)) := rfl

lemma runBest_cons {α : Type} (f : α → ℚ) (x : α) (t : List α) (a : ℚ) (o : Option α) :
    runBest f (x :: t) (a, o) =
      runBest f t (if f x > a then (f x, some x) else (a, o)) := rfl

lemma runBest_fst {α : Type} (f : α → ℚ) (l : List α) (a : ℚ) (o : Option α) :
    (runBest f l (a, o)).1 = maxScore f l a := by
  induction l generalizing a o with
  | nil => rfl
  | cons x t ih =>
    rw [runBest_cons, maxScore_cons]
    by_cases h : f x > a
    · rw [if_pos h, ih, max_eq_right h.le]
    · rw [if_neg h, ih, max_eq_left (not_lt.mp h)]

lemma runBest_snd {α : Type} (f : α → ℚ) (l : List α) (a : ℚ) (o : Option α) :
    (runBest f l (a, o)).2 =
      if a < maxScore f l a then l.find? (fun x => f x == maxScore f l a) else o := by
  induction l generalizing a o with
  | nil => simp [runBest, maxScore]
  | cons x t ih =>
    rw [runBest_cons, maxScore_cons]
    by_cases h : f x > a
    · rw [if_pos h, ih, max_eq_right h.le]
      have hM : a < maxScore f t (f x) :=
        lt_of_lt_of_le h (le_maxScore f t (f x))
      rw [if_pos hM]
      by_cases h2 : f x < maxScore f t (f x)
      · rw [if_pos h2, List.find?_cons_of_neg t (by simpa using ne_of_lt h2)]
      · rw [if_neg h2]
        have hEq : maxScore f t (f x) = f x :=
          le_antisymm (not_lt.mp h2) (le_maxScore f t (f x))
        rw [hEq, List.find?_cons_of_pos t (by simp)]
    · rw [if_neg h, ih, max_eq_left (not_lt.mp h)]
      by_cases h3 : a < maxScore f t a
      · rw [if_pos h3, if_pos h3,
          List.find?_cons_of_neg t
            (by simpa using ne_of_lt (lt_of_le_of_lt (not_lt.mp h) h3))]
      · rw [if_neg h3, if_neg h3]

lemma itemsFold_bridge (dc : String) (items : List CanonicalItem) :
    ∀ (a : ℚ) (o : Option CanonicalItem) (oP : Option (String × CanonicalItem)),
      o = oP.map Prod.snd →
      (items.foldl (itemStep dc) (a, o)).1 =
        (runBest (fuzzCandScore dc) (itemCands items) (a, oP)).1 ∧
      (items.foldl (itemStep dc) (a, o)).2 =
        (runBest (fuzzCandScore dc) (itemCands items) (a, oP)).2.map Prod.snd := by
  induction items with
  | nil =>
    intro a o oP ho
    exact ⟨rfl, ho⟩
  | cons x t ih =>
    intro a o oP ho
    simp only [itemCands, List.map_cons, List.foldl_cons, runBest_cons, itemStep,
      fuzzCandScore]
    by_cases h : fuzzScoreStr dc (lowerStr x.name) > a
    · rw [if_pos h, if_pos h]
      exact ih _ _ _ rfl
    · rw [if_neg h, if_neg h]
      exact ih _ _ _ ho

lemma synsFold_bridge (items : List CanonicalItem) (dc : String) (syns : List Synonym) :
    ∀ (a : ℚ) (o : Option CanonicalItem) (oP : Option (String × CanonicalItem)),
      o = oP.map Prod.snd →
      (syns.foldl (synStep items dc) (a, o)).1 =
        (runBest (fuzzCandScore dc) (synCands items syns) (a, oP)).1 ∧
      (syns.foldl (synStep items dc) (a, o)).2 =
        (runBest (fuzzCandScore dc) (synCands items syns) (a, oP)).2.map Prod.snd := by
  induction syns with
  | nil =>
    intro a o oP ho
    exact ⟨rfl, ho⟩
  | cons sy t ih =>
    intro a o oP ho
    rcases hl : lookupItem items sy.canonical_item_id with _ | it
    · simp only [synCands, List.filterMap_cons, hl, Option.map_none', List.foldl_cons,
        synStep]
      simp only [ite_self]
      exact ih a o oP ho
    · simp only [synCands, List.filterMap_cons, hl, Option.map_some', List.foldl_cons,
        synStep, runBest_cons, fuzzCandScore]
      by_cases h : fuzzScoreStr dc (lowerStr sy.synonym) > a
      · rw [if_pos h, if_pos h]
        exact ih _ _ _ rfl
      · rw [if_neg h, if_neg h]
        exact ih _ _ _ ho

lemma maxScore_append {α : Type} (f : α → ℚ) (l1 l2 : List α) (a : ℚ) :
    maxScore f (l1 ++ l2) a = maxScore f l2 (maxScore f l1 a) := by
  simp [maxScore, List.foldl_append]

lemma head?_ite_singleton {α : Type} (c : Prop) [Decidable c] (x : α) :
    (if c then [x] else []).head? = if c then some x else none := by
  split <;> rfl

/-- Full characterization of _try_fuzzy_match in terms of the candidate
pool: the best score M is the maximum candidate score, the result is a
fuzzy MatchResult for the first candidate attaining M exactly when
M ≥ 0.6, and a NEW_SYNONYM proposal for that candidate is created exactly
when 0.75 ≤ M ≤ 0.85. -/
lemma tryFuzzy_spec (items : List CanonicalItem) (syns : List Synonym) (dc : String) :
    (tryFuzzyMatch items syns dc).1 =
      (if 3/5 ≤ maxScore (fuzzCandScore dc) (fuzzyCandidates items syns) 0 then
        ((fuzzyCandidates items syns).find? (fun c =>
            fuzzCandScore dc c ==
              maxScore (fuzzCandScore dc) (fuzzyCandidates items syns) 0)).map
          (fuzzyResultOf dc (maxScore (fuzzCandScore dc) (fuzzyCandidates items syns) 0))
       else none) ∧
    (tryFuzzyMatch items syns dc).2 =
      (if 3/4 ≤ maxScore (fuzzCandScore dc) (fuzzyCandidates items syns) 0 ∧
          maxScore (fuzzCandScore dc) (fuzzyCandidates items syns) 0 ≤ 17/20 then
        (((fuzzyCandidates items syns).find? (fun c =>
            fuzzCandScore dc c ==
              maxScore (fuzzCandScore dc) (fuzzyCandidates items syns) 0)).map
          (fuzzyProposalOf dc
            (maxScore (fuzzCandScore dc) (fuzzyCandidates items syns) 0))).toList
       else []) := by
  set f := fuzzCandScore dc with hf
  set cands := fuzzyCandidates items syns with hcands
  set M := maxScore f cands 0 with hM
  -- connect the two folds of the source to runBest over the candidate pool
  have hbridge :
      (syns.foldl (synStep items dc) (items.foldl (itemStep dc) (0, none))).1 = M ∧
      (syns.foldl (synStep items dc) (items.foldl (itemStep dc) (0, none))).2 =
        (runBest f cands (0, none)).2.map Prod.snd := by
    obtain ⟨h1a, h1b⟩ := itemsFold_bridge dc items 0 none none rfl
    have hst1 : items.foldl (itemStep dc) (0, none) =
        ((runBest f (itemCands items) (0, none)).1,
         (runBest f (itemCands items) (0, none)).2.map Prod.snd) := by
      exact Prod.ext h1a h1b
    obtain ⟨h2a, h2b⟩ := synsFold_bridge items dc syns
      (runBest f (itemCands items) (0, none)).1
      ((runBest f (itemCands items) (0, none)).2.map Prod.snd)
      (runBest f (itemCands items) (0, none)).2 rfl
    have hrb : runBest f (synCands items syns)
        ((runBest f (itemCands items) (0, none)).1,
         (runBest f (itemCands items) (0, none)).2) =
        runBest f cands (0, none) := by
      rw [hcands, fuzzyCandidates]
      simp [runBest, List.foldl_append]
    constructor
    · rw [hst1, h2a, hrb, runBest_fst, hM]
    · rw [hst1, h2b, hrb]
  have hM0 : 0 ≤ M := le_maxScore f cands 0
  obtain ⟨hfst, hsnd⟩ := hbridge
  by_cases hMpos : 0 < M
  · have hsnd2 : (syns.foldl (synStep items dc)
        (items.foldl (itemStep dc) (0, none))).2 =
        (cands.find? (fun c => f c == M)).map Prod.snd := by
      rw [hsnd, runBest_snd, ← hM, if_pos hMpos]
    rcases hfind : cands.find? (fun c => f c == M) with _ | c
    · rw [hfind] at hsnd2
      simp only [Option.map_none'] at hsnd2
      constructor
      · show (tryFuzzyMatch items syns dc).1 = _
        simp only [tryFuzzyMatch]
        rw [hfst, hsnd2]
        split <;> simp
      · show (tryFuzzyMatch items syns dc).2 = _
        simp only [tryFuzzyMatch]
        rw [hfst, hsnd2]
        split <;> simp
    · rw [hfind] at hsnd2
      simp only [Option.map_some'] at hsnd2
      constructor
      · show (tryFuzzyMatch items syns dc).1 = _
        simp only [tryFuzzyMatch]
        rw [hfst, hsnd2]
        simp only [Option.map_some', ge_iff_le]
        by_cases h35 : 3/5 ≤ M
        · rw [if_pos h35, if_pos h35]
          rw [head?_ite_singleton]
          rfl
        · rw [if_neg h35, if_neg h35]
      · show (tryFuzzyMatch items syns dc).2 = _
        simp only [tryFuzzyMatch]
        rw [hfst, hsnd2]
        simp only [Option.map_some', Option.toList_some]
        split <;> rfl
  · have hMz : M = 0 := le_antisymm (not_lt.mp hMpos) hM0
    have hsnd2 : (syns.foldl (synStep items dc)
        (items.foldl (itemStep dc) (0, none))).2 = none := by
      rw [hsnd, runBest_snd, ← hM, if_neg hMpos]
      rfl
    constructor
    · show (tryFuzzyMatch items syns dc).1 = _
      simp only [tryFuzzyMatch]
      rw [hfst, hsnd2, hMz]
      norm_num
    · show (tryFuzzyMatch items syns dc).2 = _
      simp only [tryFuzzyMatch]
      rw [hfst, hsnd2, hMz]
      norm_num

/-- C1: for every RuleResult returned by apply_rules, policy_codes is the
empty list if and only if the decision is ALLOW. -/
theorem C1_policy_codes_iff_allow (st : RulesState) (canonical_item_id : Option String)
    (unit_price : ℚ) (quantity : ℤ) (match_confidence : ℚ) (price_is_valid : Bool)
    (line_item_id vendor_id : String) :
    (applyRules st canonical_item_id unit_price quantity match_confidence price_is_valid
        line_item_id vendor_id).policy_codes = [] ↔
      (applyRules st canonical_item_id unit_price quantity match_confidence price_is_valid
        line_item_id vendor_id).decision = Decision.ALLOW := by
  unfold applyRules
  simp only [checkVendorExclusion, checkQuantityLimits, checkItemBlacklist]
  cases canonical_item_id with
  | none => simp
  | some cid =>
    cases h : st.price_ranges cid with
    | none => simp [h]
    | some band =>
      simp only [h]
      split_ifs <;> simp_all

/-- C2 counterexample: on a degenerate band (min_price > 3 × max_price) the
source's if/elif between the two price rules records only
PRICE_EXCEEDS_MAX_150, while the section-4.3 table read literally fires
PRICE_BELOW_MIN_50 as well, so policy_codes does not accumulate every
fired violation. -/
theorem C2_counterexample :
    (applyRules stDegenerate (some ("item-1")) 20 1 1 true ("li") ("v")).policy_codes =
      ["PRICE_EXCEEDS_MAX_150"] ∧
    (specFiredCodes stDegenerate (some ("item-1")) 20 1 ("v")).map Prod.fst =
      ["PRICE_EXCEEDS_MAX_150", "PRICE_BELOW_MIN_50"] ∧
    (applyRules stDegenerate (some ("item-1")) 20 1 1 true ("li") ("v")).policy_codes ≠
      (specFiredCodes stDegenerate (some ("item-1")) 20 1 ("v")).map Prod.fst := by
  have h1 : (applyRules stDegenerate (some ("item-1")) 20 1 1 true ("li") ("v")).policy_codes =
      ["PRICE_EXCEEDS_MAX_150"] := by
    unfold applyRules stDegenerate
    norm_num [checkVendorExclusion, checkQuantityLimits, checkItemBlacklist]
  have h2 : (specFiredCodes stDegenerate (some ("item-1")) 20 1 ("v")).map Prod.fst =
      ["PRICE_EXCEEDS_MAX_150", "PRICE_BELOW_MIN_50"] := by
    unfold specFiredCodes stDegenerate
    norm_num [checkVendorExclusion, checkQuantityLimits, checkItemBlacklist]
  refine ⟨h1, h2, ?_⟩
  rw [h1, h2]
  decide

/-- C2 (amended): the checks run in the fixed section-4.3 order and
policy_codes lists exactly the fired codes in that order, except that
PRICE_BELOW_MIN_50 is checked only when PRICE_EXCEEDS_MAX_150 did not
fire; the returned decision is the most severe outcome among the fired
codes (DENY > NEEDS_MORE_INFO > ALLOW, ALLOW when none fires). -/
theorem C2_fixed_order_and_severity (st : RulesState) (canonical_item_id : Option String)
    (unit_price : ℚ) (quantity : ℤ) (match_confidence : ℚ) (price_is_valid : Bool)
    (line_item_id vendor_id : String) :
    (applyRules st canonical_item_id unit_price quantity match_confidence price_is_valid
        line_item_id vendor_id).policy_codes =
      (specFiredCodesAmended st canonical_item_id unit_price quantity vendor_id).map
        Prod.fst ∧
    (applyRules st canonical_item_id unit_price quantity match_confidence price_is_valid
        line_item_id vendor_id).decision =
      maxDecision ((specFiredCodesAmended st canonical_item_id unit_price quantity
        vendor_id).map Prod.snd) := by
  unfold applyRules specFiredCodesAmended
  simp only [checkVendorExclusion, checkQuantityLimits, checkItemBlacklist]
  cases canonical_item_id with
  | none => simp [maxDecision, moreSevere, sevRank]
  | some cid =>
    cases h : st.price_ranges cid with
    | none => simp [h, maxDecision, moreSevere, sevRank]
    | some band =>
      simp only [h]
      split_ifs <;> simp_all [maxDecision, moreSevere, sevRank]

/-- C3 counterexample: the fuzzy similarity of the source is not the
token-set (order-insensitive) ratio claimed by the spec.  For description
"b a" against the sole canonical name "a b" the token-set ratio is 1
(well above the 0.6 acceptance threshold, so a token-set matcher would
return a fuzzy hit), yet the source's rapidfuzz.fuzz.ratio-based stage
scores it 1/3 and returns no match. -/
theorem C3_counterexample :
    tokenSetRatio ("b a") ("a b") = 1 ∧
    ((3 : ℚ)/5 ≤ 1) ∧
    fuzzScoreStr ("b a") (lowerStr ("a b")) = 1/3 ∧
    (tryFuzzyMatch itemsTok [] ("b a")).1 = none := by
  have hsc : fuzzScoreStr ("b a") (lowerStr ("a b")) = 1/3 := by
    unfold fuzzScoreStr fuzzSim
    rw [show ("b a").data = ['b', ' ', 'a'] from by decide,
      show (lowerStr ("a b")).data = ['a', ' ', 'b'] from by decide]
    rw [show lcsLen ['b', ' ', 'a'] ['a', ' ', 'b'] = 1 from by simp [lcsLen]]
    norm_num
  refine ⟨?_, by norm_num, hsc, ?_⟩
  · unfold tokenSetRatio
    rw [show tokensOf ("b a") = ["b", "a"] from by decide,
      show tokensOf ("a b") = ["a", "b"] from by decide]
    rw [if_neg (by simp)]
    rw [show ((["b", "a"].filter (["a", "b"] : List String).contains)).length = 2 from
        by decide,
      show (((["b", "a"] : List String).union ["a", "b"])).length = 2 from by decide]
    norm_num
  · norm_num [tryFuzzyMatch, itemsTok, itemStep, hsc]

/-- C3 (amended): the fuzzy similarity of the source is the normalized
indel (LCS-based Levenshtein) ratio, which is order-sensitive; it lies in
[0, 1] for every candidate; the stage returns the first-encountered
candidate attaining the highest score across both pools (canonical names,
and synonyms whose canonical id resolves), and only when that best score
is at least 0.6, otherwise no fuzzy result. -/
theorem C3_corrected_fuzzy (items : List CanonicalItem) (syns : List Synonym)
    (description_clean : String) (M : ℚ)
    (hM : M = maxScore (fuzzCandScore description_clean)
      (fuzzyCandidates items syns) 0) :
    (∀ c ∈ fuzzyCandidates items syns,
        0 ≤ fuzzCandScore description_clean c ∧ fuzzCandScore description_clean c ≤ 1) ∧
    (M < 3/5 → (tryFuzzyMatch items syns description_clean).1 = none) ∧
    (3/5 ≤ M →
      (tryFuzzyMatch items syns description_clean).1 =
        ((fuzzyCandidates items syns).find? (fun c =>
            fuzzCandScore description_clean c == M)).map
          (fuzzyResultOf description_clean M)) := by
  subst hM
  refine ⟨?_, ?_, ?_⟩
  · intro c _
    exact ⟨fuzzSim_nonneg _ _, fuzzSim_le_one _ _⟩
  · intro hlt
    rw [(tryFuzzy_spec items syns description_clean).1, if_neg (not_le.mpr hlt)]
  · intro hge
    rw [(tryFuzzy_spec items syns description_clean).1, if_pos hge]

/-- Witness for C3 (amended): on the one-item catalog itemsW the
description "ab" scores 4/5 against "abc", which is at least 0.6, and the
fuzzy stage returns exactly the first maximal candidate as the theorem
states, with a NEW_SYNONYM proposal because 4/5 lies in [0.75, 0.85]. -/
theorem C3_corrected_fuzzy_witness :
    (tryFuzzyMatch itemsW [] ("ab")).1 =
      ((fuzzyCandidates itemsW []).find? (fun c =>
          fuzzCandScore ("ab") c ==
            maxScore (fuzzCandScore ("ab")) (fuzzyCandidates itemsW []) 0)).map
        (fuzzyResultOf ("ab")
          (maxScore (fuzzCandScore ("ab")) (fuzzyCandidates itemsW []) 0)) := by
  have hsc : fuzzScoreStr ("ab") (lowerStr ("abc")) = 4/5 := by
    unfold fuzzScoreStr fuzzSim
    rw [show ("ab").data = ['a', 'b'] from by decide,
      show (lowerStr ("abc")).data = ['a', 'b', 'c'] from by decide]
    rw [show lcsLen ['a', 'b'] ['a', 'b', 'c'] = 2 from by simp [lcsLen]]
    norm_num
  have hM : maxScore (fuzzCandScore ("ab")) (fuzzyCandidates itemsW []) 0 = 4/5 := by
    simp only [fuzzyCandidates, itemCands, synCands, itemsW, List.map_cons,
      List.map_nil, List.filterMap_nil, List.append_nil, maxScore, List.foldl_cons,
      List.foldl_nil, fuzzCandScore, hsc]
    rw [max_eq_right (by norm_num : (0 : ℚ) ≤ 4/5)]
  exact (C3_corrected_fuzzy itemsW [] ("ab")
    (maxScore (fuzzCandScore ("ab")) (fuzzyCandidates itemsW []) 0) rfl).2.2
    (by rw [hM]; norm_num)

/-- C7: match_item creates a NEW_SYNONYM proposal, carrying the winning
canonical_item_id, the normalized description as synonym and the fuzzy
score as confidence, exactly when the exact and synonym stages miss and
the winning fuzzy score lies in the closed interval [0.75, 0.85]; outside
that interval (or when an earlier stage hits) matching creates no synonym
proposal, and whenever a proposal is created the returned MatchResult is
the fuzzy result for the same winning candidate. -/
theorem C7_medium_fuzzy_synonym_proposal (items : List CanonicalItem)
    (syns : List Synonym) (description dc : String) (M : ℚ)
    (hdc : dc = lowerStr (trimStr description))
    (hM : M = maxScore (fuzzCandScore dc) (fuzzyCandidates items syns) 0) :
    ((matchItem items syns description).2 =
      (match tryExactMatch items dc, trySynonymMatch items syns dc with
      | none, none =>
        if 3/4 ≤ M ∧ M ≤ 17/20 then
          (((fuzzyCandidates items syns).find? (fun c =>
              fuzzCandScore dc c == M)).map (fuzzyProposalOf dc M)).toList
        else []
      | _, _ => [])) ∧
    (∀ pr ∈ (matchItem items syns description).2,
      pr.ptype = "NEW_SYNONYM" ∧ pr.synonym = dc ∧ pr.confidence = M ∧
      (matchItem items syns description).1.match_type = "fuzzy" ∧
      (matchItem items syns description).1.canonical_item_id =
        some pr.canonical_item_id) := by
  subst hdc
  obtain ⟨h1, h2⟩ := tryFuzzy_spec items syns (lowerStr (trimStr description))
  rw [← hM] at h1 h2
  rcases hex : tryExactMatch items (lowerStr (trimStr description)) with _ | r
  case some =>
    refine ⟨by simp [matchItem, hex], ?_⟩
    intro pr hpr
    simp [matchItem, hex] at hpr
  case none =>
  rcases hsyn : trySynonymMatch items syns (lowerStr (trimStr description)) with _ | r
  case some =>
    refine ⟨by simp [matchItem, hex, hsyn], ?_⟩
    intro pr hpr
    simp [matchItem, hex, hsyn] at hpr
  case none =>
  have hm2 : (matchItem items syns description).2 =
      (tryFuzzyMatch items syns (lowerStr (trimStr description))).2 := by
    simp only [matchItem, hex, hsyn]
    rcases htf : tryFuzzyMatch items syns (lowerStr (trimStr description)) with ⟨o, props⟩
    cases o <;> rfl
  constructor
  · rw [hm2, h2]
  · intro pr hpr
    rw [hm2, h2] at hpr
    by_cases hint : 3/4 ≤ M ∧ M ≤ 17/20
    · rw [if_pos hint] at hpr
      rcases hfind : (fuzzyCandidates items syns).find? (fun c =>
          fuzzCandScore (lowerStr (trimStr description)) c == M) with _ | c
      · rw [hfind] at hpr
        simp at hpr
      · rw [hfind] at hpr
        simp only [Option.map_some', Option.toList_some, List.mem_singleton] at hpr
        subst hpr
        have h35 : (3 : ℚ)/5 ≤ M := le_trans (by norm_num) hint.1
        rw [if_pos h35, hfind] at h1
        simp only [Option.map_some'] at h1
        have hm1 : (matchItem items syns description).1 =
            fuzzyResultOf (lowerStr (trimStr description)) M c := by
          simp only [matchItem, hex, hsyn]
          rcases htf : tryFuzzyMatch items syns (lowerStr (trimStr description)) with ⟨o, props⟩
          rw [htf] at h1
          simp only at h1
          rw [h1]
        refine ⟨rfl, rfl, rfl, ?_, ?_⟩
        · rw [hm1]
          rfl
        · rw [hm1]
          rfl
    · rw [if_neg hint] at hpr
      simp at hpr

/-- Witness for C7: for description "ab" on the itemsW catalog the fuzzy
score is 4/5 ∈ [0.75, 0.85], and matching creates exactly the prW
proposal while returning the fuzzy result for the same candidate. -/
theorem C7_medium_fuzzy_synonym_proposal_witness :
    prW.ptype = "NEW_SYNONYM" ∧ prW.synonym = lowerStr (trimStr ("ab")) ∧
    prW.confidence =
      maxScore (fuzzCandScore (lowerStr (trimStr ("ab"))))
        (fuzzyCandidates itemsW []) 0 ∧
    (matchItem itemsW [] ("ab")).1.match_type = "fuzzy" ∧
    (matchItem itemsW [] ("ab")).1.canonical_item_id = some prW.canonical_item_id := by
  have hsc : fuzzScoreStr ("ab") (lowerStr ("abc")) = 4/5 := by
    unfold fuzzScoreStr fuzzSim
    rw [show ("ab").data = ['a', 'b'] from by decide,
      show (lowerStr ("abc")).data = ['a', 'b', 'c'] from by decide]
    rw [show lcsLen ['a', 'b'] ['a', 'b', 'c'] = 2 from by simp [lcsLen]]
    norm_num
  have hfz : tryFuzzyMatch itemsW [] ("ab") =
      (some ⟨some ("1"), some ("abc"), 4/5, "fuzzy", some prW⟩, [prW]) := by
    norm_num [tryFuzzyMatch, itemsW, itemStep, hsc, prW,
      show ("ab" : String).length = 2 from by decide]
  have hm : matchItem itemsW [] ("ab") =
      (⟨some ("1"), some ("abc"), 4/5, "fuzzy", some prW⟩, [prW]) := by
    simp only [matchItem]
    rw [show lowerStr (trimStr ("ab")) = "ab" from by decide]
    rw [show tryExactMatch itemsW ("ab") = none from by decide]
    rw [show trySynonymMatch itemsW [] ("ab") = none from rfl]
    rw [hfz]
  exact (C7_medium_fuzzy_synonym_proposal itemsW [] ("ab")
    (lowerStr (trimStr ("ab")))
    (maxScore (fuzzCandScore (lowerStr (trimStr ("ab")))) (fuzzyCandidates itemsW []) 0)
    rfl rfl).2 prW (by rw [hm]; simp)

/-- C4: with a price range on file, is_valid holds exactly when the price
lies in [min_price, max_price]; variance_percent is 0 everywhere inside
the band and strictly increases as the price moves further outside it in
either direction (stated for well-formed bands with 0 < min ≤ max); with
no canonical item or no range on file the result is permissively valid
with no expected range and no variance. -/
theorem C4_price_band (st : PricingState) (cid li : String) (band : PriceBand)
    (p p1 p2 q1 q2 : ℚ)
    (hband : st.price_ranges cid = some band)
    (h0 : 0 < band.min_price) (hminmax : band.min_price ≤ band.max_price) :
    ((validatePrice st (some cid) p li).is_valid = true ↔
      (band.min_price ≤ p ∧ p ≤ band.max_price)) ∧
    (band.min_price ≤ p → p ≤ band.max_price →
      (validatePrice st (some cid) p li).variance_percent = some 0) ∧
    (p1 < p2 → p2 < band.min_price →
      (validatePrice st (some cid) p1 li).variance_percent = some q1 →
      (validatePrice st (some cid) p2 li).variance_percent = some q2 →
      q2 < q1) ∧
    (band.max_price < p1 → p1 < p2 →
      (validatePrice st (some cid) p1 li).variance_percent = some q1 →
      (validatePrice st (some cid) p2 li).variance_percent = some q2 →
      q1 < q2) ∧
    (validatePrice st none p li = ⟨true, none, p, none, none, none⟩) ∧
    (∀ cid2, st.price_ranges cid2 = none →
      validatePrice st (some cid2) p li = ⟨true, some cid2, p, none, none, none⟩) := by
  have hmax0 : 0 < band.max_price := lt_of_lt_of_le h0 hminmax
  refine ⟨?_, ?_, ?_, ?_, ?_, ?_⟩
  · simp only [validatePrice, hband]
    simp [decide_eq_true_eq]
  · intro hlo hhi
    simp only [validatePrice, hband]
    rw [if_neg (not_lt.mpr hlo), if_neg (not_lt.mpr hhi)]
  · intro h12 h2min hv1 hv2
    have h1min : p1 < band.min_price := lt_trans h12 h2min
    simp only [validatePrice, hband] at hv1 hv2
    rw [if_pos h1min] at hv1
    rw [if_pos h2min] at hv2
    have hq1 : q1 = (band.min_price - p1) / band.min_price := by
      exact (Option.some.injEq _ _ ▸ hv1).symm
    have hq2 : q2 = (band.min_price - p2) / band.min_price := by
      exact (Option.some.injEq _ _ ▸ hv2).symm
    rw [hq1, hq2, div_lt_div_iff_of_pos_right h0]
    linarith
  · intro hmax1 h12 hv1 hv2
    have hmax2 : band.max_price < p2 := lt_trans hmax1 h12
    simp only [validatePrice, hband] at hv1 hv2
    rw [if_neg (by linarith : ¬ p1 < band.min_price), if_pos hmax1] at hv1
    rw [if_neg (by linarith : ¬ p2 < band.min_price), if_pos hmax2] at hv2
    have hq1 : q1 = (p1 - band.max_price) / band.max_price := by
      exact (Option.some.injEq _ _ ▸ hv1).symm
    have hq2 : q2 = (p2 - band.max_price) / band.max_price := by
      exact (Option.some.injEq _ _ ▸ hv2).symm
    rw [hq1, hq2, div_lt_div_iff_of_pos_right hmax0]
    linarith
  · rfl
  · intro cid2 h2
    simp only [validatePrice, h2]

/-- Witness for C4: with the band [100, 200], price 150 is valid, and the
variance strictly grows moving from 50 to 40 below the band
(1/2 < 3/5). -/
theorem C4_price_band_witness :
    (validatePrice stBand (some ("item-1")) 150 ("li")).is_valid = true ∧
    ((1 : ℚ)/2 < 3/5) := by
  have hband : stBand.price_ranges ("item-1") = some ⟨100, 200⟩ := by
    simp [stBand]
  constructor
  · exact ((C4_price_band stBand ("item-1") ("li") ⟨100, 200⟩ 150 0 0 0 0 hband
      (by norm_num) (by norm_num)).1).mpr (by norm_num)
  · refine (C4_price_band stBand ("item-1") ("li") ⟨100, 200⟩ 0 40 50 (3/5) (1/2) hband
      (by norm_num) (by norm_num)).2.2.1 (by norm_num) (by norm_num) ?_ ?_
    · simp only [validatePrice, hband]
      norm_num
    · simp only [validatePrice, hband]
      norm_num

lemma foldlMin_mem (h : ℚ) (t : List ℚ) : t.foldl min h ∈ h :: t := by
  induction t generalizing h with
  | nil => simp
  | cons x t ih =>
    simp only [List.foldl_cons]
    rcases List.mem_cons.mp (ih (min h x)) with heq | hmem2
    · rcases min_choice h x with hc | hc
      · rw [List.mem_cons]
        exact Or.inl (heq.trans hc)
      · rw [List.mem_cons, List.mem_cons]
        exact Or.inr (Or.inl (heq.trans hc))
    · exact List.mem_cons_of_mem _ (List.mem_cons_of_mem _ hmem2)

lemma foldlMin_le (h : ℚ) (t : List ℚ) : ∀ x ∈ h :: t, t.foldl min h ≤ x := by
  induction t generalizing h with
  | nil =>
    intro x hx
    simp only [List.mem_singleton] at hx
    subst hx
    simp
  | cons y t ih =>
    intro x hx
    simp only [List.foldl_cons]
    rcases List.mem_cons.mp hx with heq | hmem
    · subst heq
      exact le_trans (ih (min x y) (min x y) (by simp)) (min_le_left x y)
    · rcases List.mem_cons.mp hmem with heq | hmem2
      · subst heq
        exact le_trans (ih (min h x) (min h x) (by simp)) (min_le_right h x)
      · exact ih (min h y) x (List.mem_cons_of_mem _ hmem2)

/-- C5: the verdict is computed from the present (non-None) scores: FAIL
when the minimum is below 0.6 (equivalently, some present score is below
0.6), WARN when the minimum lies in [0.6, 0.8), PASS when every present
score is at least 0.8, and PASS when no score is present at all. -/
theorem C5_verdict_rule (scores : List (Option ℚ)) :
    (scores.filterMap id = [] → verdict scores = "PASS") ∧
    ((∃ x ∈ scores.filterMap id, x < 3/5) → verdict scores = "FAIL") ∧
    (scores.filterMap id ≠ [] → (∀ x ∈ scores.filterMap id, 3/5 ≤ x) →
      (∃ x ∈ scores.filterMap id, x < 4/5) → verdict scores = "WARN") ∧
    ((∀ x ∈ scores.filterMap id, 4/5 ≤ x) → verdict scores = "PASS") := by
  unfold verdict
  rcases hp : scores.filterMap id with _ | ⟨h, t⟩
  · refine ⟨fun _ => rfl, ?_, ?_, fun _ => rfl⟩
    · rintro ⟨x, hx, _⟩
      simp at hx
    · intro hne
      exact absurd rfl hne
  · have hmem := foldlMin_mem h t
    have hle := foldlMin_le h t
    refine ⟨by simp, ?_, ?_, ?_⟩
    · rintro ⟨x, hx, hxlt⟩
      have : t.foldl min h < 3/5 := lt_of_le_of_lt (hle x hx) hxlt
      simp only [if_pos this]
    · intro _ hall ⟨x, hx, hxlt⟩
      have hge : 3/5 ≤ t.foldl min h := hall _ hmem
      have hlt : t.foldl min h < 4/5 := lt_of_le_of_lt (hle x hx) hxlt
      simp only [if_neg (not_lt.mpr hge), if_pos hlt]
    · intro hall
      have hge : 4/5 ≤ t.foldl min h := hall _ hmem
      simp only [if_neg (not_lt.mpr (le_trans (by norm_num : (3:ℚ)/5 ≤ 4/5) hge)),
        if_neg (not_lt.mpr hge)]

/-- Witness for C5: scores {0.9, None, 1} are all at least 0.8, so the
verdict is PASS. -/
theorem C5_verdict_rule_witness :
    verdict [some ((9 : ℚ)/10), none, some 1] = "PASS" := by
  refine (C5_verdict_rule [some ((9 : ℚ)/10), none, some 1]).2.2.2 ?_
  intro x hx
  have : ([some ((9 : ℚ)/10), none, some 1].filterMap id) = [(9 : ℚ)/10, 1] := rfl
  rw [this] at hx
  rcases List.mem_cons.mp hx with heq | hmem
  · rw [heq]
    norm_num
  · simp only [List.mem_singleton] at hmem
    rw [hmem]
    norm_num

/-- C9 counterexample: the text "hello tiny box" (14 characters, no policy
code, no digit, no sentence punctuation) receives 0.2 from the code's
extra length tier for lengths over 10 outside [30, 300], while the claim's
contribution list yields 0. -/
theorem C9_counterexample :
    scoreWithHeuristics ("hello tiny box") [] = 1/5 ∧
    claimHeuristicScore ("hello tiny box") [] = 0 ∧
    scoreWithHeuristics ("hello tiny box") [] ≠
      claimHeuristicScore ("hello tiny box") [] := by
  have hne : ¬ (("hello tiny box" : String) = "") := by decide
  have hlen : (trimStr ("hello tiny box")).length = 14 := by decide
  have hdig : (("hello tiny box" : String).data.any Char.isDigit) = false := by decide
  have hdot : (("hello tiny box" : String).data.contains ('.')) = false := by decide
  have hbang : (("hello tiny box" : String).data.contains ('!')) = false := by decide
  have hq : (("hello tiny box" : String).data.contains ('?')) = false := by decide
  have h1 : scoreWithHeuristics ("hello tiny box") [] = 1/5 := by
    unfold scoreWithHeuristics
    rw [if_neg hne]
    simp only [hlen, hdig, hdot, hbang, hq, List.filter_nil, List.length_nil]
    norm_num
  have h2 : claimHeuristicScore ("hello tiny box") [] = 0 := by
    unfold claimHeuristicScore
    simp only [hlen, hdig, hdot, hbang, hq, List.filter_nil, List.length_nil]
    norm_num
  exact ⟨h1, h2, by rw [h1, h2]; norm_num⟩

/-- C9 (amended): the heuristic explanation score is the sum, capped at
1.0, of: 0.4 when the stripped length is in [30, 300], otherwise 0.2 when
it exceeds 10, otherwise nothing; 0.3 when at least one policy code
occurs in the uppercased text; 0.2 when the text contains a digit; 0.1
for sentence-terminal punctuation; and 0 for empty text. -/
theorem C9_corrected_heuristics (text : String) (policy_codes : List String) :
    scoreWithHeuristics text policy_codes =
      amendedHeuristicScore text policy_codes := by
  simp only [scoreWithHeuristics, amendedHeuristicScore]
  split_ifs <;> norm_num

lemma union_length_pos (a b : List String) (h : ¬(a = [] ∧ b = [])) :
    0 < (a.union b).length := by
  rcases a with _ | ⟨x, t⟩
  · rcases b with _ | ⟨y, u⟩
    · exact absurd ⟨rfl, rfl⟩ h
    · exact Nat.succ_pos u.length
  · have hx : x ∈ (x :: t).union b := by
      have hm : x ∈ (x :: t) ∪ b :=
        List.mem_union_iff.mpr (Or.inl (List.mem_cons_self x t))
      exact hm
    exact List.length_pos.mpr (List.ne_nil_of_mem hx)

/-- C6: when no gold label exists for a fingerprint, the three
gold-dependent scores are all None (never 0); with a gold label they are
the section-4.5 values: decision equality as 1/0, canonical-id identity as
1/0 (including both absent), and Jaccard similarity of the policy-code
sets with 1.0 when both sets are empty. -/
theorem C6_missing_gold_scores (st : JudgeState) (fp actual : String)
    (codes : List String) (cid : Option String) :
    (st.gold fp = none →
      scoreDecision st actual fp = none ∧ scorePolicy st codes fp = none ∧
      scoreMatch st cid fp = none) ∧
    (∀ g, st.gold fp = some g →
      scoreDecision st actual fp =
        some (if actual = g.expected_decision then 1 else 0) ∧
      scoreMatch st cid fp =
        some (if cid = g.expected_canonical_id then 1 else 0) ∧
      scorePolicy st codes fp =
        some (jaccardQ codes g.expected_policy_codes) ∧
      (codes = [] → g.expected_policy_codes = [] →
        scorePolicy st codes fp = some 1)) := by
  constructor
  · intro h
    exact ⟨by simp [scoreDecision, h], by simp [scorePolicy, h],
      by simp [scoreMatch, h]⟩
  · intro g hg
    refine ⟨by simp [scoreDecision, hg], by simp [scoreMatch, hg], ?_, ?_⟩
    · simp only [scorePolicy, hg, jaccardQ]
      by_cases hboth : codes.dedup = [] ∧ g.expected_policy_codes.dedup = []
      · have hlen : codes.dedup.length = 0 ∧
            g.expected_policy_codes.dedup.length = 0 := by
          rw [List.length_eq_zero, List.length_eq_zero]
          exact hboth
        rw [if_pos hlen, if_pos hboth]
      · have hlen : ¬(codes.dedup.length = 0 ∧
            g.expected_policy_codes.dedup.length = 0) := by
          rw [List.length_eq_zero, List.length_eq_zero]
          exact hboth
        rw [if_neg hlen, if_neg hboth, if_pos (union_length_pos _ _ hboth)]
    · intro hc hgc
      simp [scorePolicy, hg, hc, hgc]

/-- Witness for C6: with a gold table holding only fingerprint "fp-1",
all three gold-dependent scores are None at "fp-2", and policy_justified
is 1 at "fp-1" where both code sets are empty. -/
theorem C6_missing_gold_scores_witness :
    (scoreDecision stGold ("ALLOW") ("fp-2") = none ∧
     scorePolicy stGold [] ("fp-2") = none ∧
     scoreMatch stGold (some ("1")) ("fp-2") = none) ∧
    scorePolicy stGold [] ("fp-1") = some 1 := by
  constructor
  · exact (C6_missing_gold_scores stGold ("fp-2") ("ALLOW") [] (some ("1"))).1
      (by decide)
  · exact ((C6_missing_gold_scores stGold ("fp-1") ("ALLOW") [] (some ("1"))).2
      ⟨"ALLOW", some ("1"), [], none⟩ (by decide)).2.2.2 rfl rfl

lemma logEvent_eq_ok (dry_run : Bool) (o : Except String Unit) :
    logEvent dry_run o = Except.ok () := by
  unfold logEvent
  rcases dry_run <;> rcases o <;> rfl

lemma core_error_of_insert_error (env : JudgeEnv) (dd : DecisionData)
    (description vendor_id : String) (unit_price : ℚ)
    (price_band : Option PriceBand) (llm_outcome : Except String ℚ) (e : String) :
    ∃ msg, judgeLineItemCore env dd description vendor_id unit_price price_band
      llm_outcome (Except.error e) = Except.error msg := by
  rcases dd with ⟨_ | d1, _ | d2, _ | d3, _ | d4⟩ <;>
    simp [judgeLineItemCore, dictGet, bind, Except.bind]

/-- C10: judge_line_item never propagates an exception to the caller — it
returns None when judging is disabled, and on any failure of the judging
body (missing decision_data keys or a failing judgement insert) the
catch-all handler logs through the self-swallowing log_event and returns
None; a None judgement leaves the line-item decision unchanged. -/
theorem C10_judge_total (env : JudgeEnv) (dd : DecisionData)
    (description vendor_id : String) (unit_price : ℚ)
    (price_band : Option PriceBand) (llm_outcome : Except String ℚ)
    (insert_outcome log_outcome : Except String Unit) (d : LineDecision) :
    (∃ v, judgeLineItem env dd description vendor_id unit_price price_band
      llm_outcome insert_outcome log_outcome = Except.ok v) ∧
    (env.enabled = false →
      judgeLineItem env dd description vendor_id unit_price price_band
        llm_outcome insert_outcome log_outcome = Except.ok none) ∧
    (∀ e, env.enabled = true →
      judgeLineItem env dd description vendor_id unit_price price_band
        llm_outcome (Except.error e) log_outcome = Except.ok none) ∧
    attachJudgement d none = d := by
  have hlog : logEvent env.dry_run log_outcome = Except.ok () := logEvent_eq_ok _ _
  refine ⟨?_, ?_, ?_, rfl⟩
  · unfold judgeLineItem
    cases henb : env.enabled
    · exact ⟨none, rfl⟩
    · simp only [Bool.not_true, Bool.false_eq_true, if_false]
      rcases hcore : judgeLineItemCore env dd description vendor_id unit_price
          price_band llm_outcome insert_outcome with e | j
      · rw [hlog]
        exact ⟨none, rfl⟩
      · exact ⟨some j, rfl⟩
  · intro h
    unfold judgeLineItem
    rw [h]
    rfl
  · intro e htrue
    unfold judgeLineItem
    rw [htrue]
    obtain ⟨msg, hmsg⟩ := core_error_of_insert_error env dd description vendor_id
      unit_price price_band llm_outcome e
    simp only [Bool.not_true, Bool.false_eq_true, if_false, hmsg, hlog]

/-- Witness for C10: with judging disabled the judge returns None without
raising. -/
theorem C10_judge_total_witness :
    judgeLineItem ⟨false, false, true, ⟨fun _ => none⟩⟩
      ⟨some ("ALLOW"), some [], some none, some []⟩ ("desk") ("v1") 10 none
      (Except.error ("no llm")) (Except.ok ()) (Except.ok ()) = Except.ok none :=
  (C10_judge_total ⟨false, false, true, ⟨fun _ => none⟩⟩
    ⟨some ("ALLOW"), some [], some none, some []⟩ ("desk") ("v1") 10 none
    (Except.error ("no llm")) (Except.ok ()) (Except.ok ())
    ⟨"ALLOW", none⟩).2.1 rfl

lemma approveUpd_id (pid user : String) (q : ProposalRow) :
    (approveUpd pid user q).id = q.id := by
  unfold approveUpd
  split <;> rfl

lemma approveUpd_status (pid user : String) (q : ProposalRow)
    (h : (q.id == pid) = true) :
    (approveUpd pid user q).status = "APPROVED" := by
  unfold approveUpd
  rw [if_pos h]

lemma find?_map_approveUpd (pid user : String) (l : List ProposalRow)
    (p : ProposalRow) (h : l.find? (fun q => q.id == pid) = some p) :
    (l.map (approveUpd pid user)).find? (fun q => q.id == pid) =
      some (approveUpd pid user p) := by
  induction l with
  | nil => simp at h
  | cons x t ih =>
    rcases hx : (x.id == pid) with _ | _
    · rw [List.find?_cons_of_neg t (by simp [hx])] at h
      simp only [List.map_cons]
      rw [List.find?_cons_of_neg (t.map (approveUpd pid user))
        (by simp [approveUpd_id, hx])]
      exact ih h
    · rw [List.find?_cons_of_pos t hx] at h
      obtain rfl := Option.some.inj h
      simp only [List.map_cons]
      rw [List.find?_cons_of_pos (t.map (approveUpd pid user))
        (by simp [approveUpd_id, hx])]

lemma applyNewSynonym_proposals (db : FeedbackDB) (pl : PayloadDict)
    (v : ApplyOutcome) (db2 : FeedbackDB)
    (h : applyNewSynonym db pl = Except.ok (v, db2)) :
    db2.proposals = db.proposals := by
  unfold applyNewSynonym at h
  rcases hc : pl.canonical_item_id with _ | cid
  · simp only [dictGet, hc, bind, Except.bind] at h
    exact Except.noConfusion h
  · simp only [dictGet, hc, bind, Except.bind] at h
    rcases hs : pl.synonym with _ | syn
    · simp only [hs] at h
      exact Except.noConfusion h
    · simp only [hs] at h
      rcases hf : db.synonyms.find? (fun r =>
          r.canonical_item_id == cid && r.synonym == syn) with _ | row
      · simp only [hf, Except.ok.injEq, Prod.mk.injEq] at h
        obtain ⟨-, hdb⟩ := h
        rw [← hdb]
      · simp only [hf, Except.ok.injEq, Prod.mk.injEq] at h
        obtain ⟨-, hdb⟩ := h
        rw [← hdb]

lemma applyPriceRangeAdjust_proposals (db : FeedbackDB) (pl : PayloadDict)
    (v : ApplyOutcome) (db2 : FeedbackDB)
    (h : applyPriceRangeAdjust db pl = Except.ok (v, db2)) :
    db2.proposals = db.proposals := by
  unfold applyPriceRangeAdjust at h
  rcases hc : pl.canonical_item_id with _ | cid
  · simp only [dictGet, hc, bind, Except.bind] at h
    exact Except.noConfusion h
  · simp only [dictGet, hc, bind, Except.bind] at h
    rcases hr : pl.new_range with _ | nr
    · simp only [hr] at h
      exact Except.noConfusion h
    · simp only [hr] at h
      by_cases hex : db.price_ranges.any (fun r => r.canonical_item_id == cid) = true
      · rw [if_pos hex] at h
        simp only [Except.ok.injEq, Prod.mk.injEq] at h
        obtain ⟨-, hdb⟩ := h
        rw [← hdb]
      · rw [if_neg hex] at h
        simp only [Except.ok.injEq, Prod.mk.injEq] at h
        obtain ⟨-, hdb⟩ := h
        rw [← hdb]

lemma applyNewRule_proposals (db : FeedbackDB) (pl : PayloadDict)
    (v : ApplyOutcome) (db2 : FeedbackDB)
    (h : applyNewRule db pl = Except.ok (v, db2)) :
    db2.proposals = db.proposals := by
  unfold applyNewRule at h
  rcases ht : pl.rule_type with _ | rt
  · simp only [dictGet, ht, bind, Except.bind] at h
    exact Except.noConfusion h
  · simp only [dictGet, ht, bind, Except.bind] at h
    rcases hco : pl.conditions with _ | co
    · simp only [hco] at h
      exact Except.noConfusion h
    · simp only [hco] at h
      rcases ha : pl.actions with _ | ac
      · simp only [ha] at h
        exact Except.noConfusion h
      · simp only [ha, Except.ok.injEq, Prod.mk.injEq] at h
        obtain ⟨-, hdb⟩ := h
        rw [← hdb]

lemma applyNewCanonical_proposals (db : FeedbackDB) (pl : PayloadDict)
    (v : ApplyOutcome) (db2 : FeedbackDB)
    (h : applyNewCanonical db pl = Except.ok (v, db2)) :
    db2.proposals = db.proposals := by
  unfold applyNewCanonical at h
  rcases hn : pl.name with _ | nm
  · simp only [dictGet, hn, bind, Except.bind] at h
    exact Except.noConfusion h
  · simp only [dictGet, hn, bind, Except.bind, Except.ok.injEq, Prod.mk.injEq] at h
    obtain ⟨-, hdb⟩ := h
    rw [← hdb]

lemma applyProposal_proposals (db : FeedbackDB) (p : ProposalRow) :
    (applyProposal db p).2.proposals = db.proposals := by
  unfold applyProposal
  split_ifs with h1 h2 h3 h4
  · rcases hr : applyNewSynonym db p.payload with e | ⟨v, db2⟩
    · rfl
    · exact applyNewSynonym_proposals db p.payload v db2 hr
  · rcases hr : applyPriceRangeAdjust db p.payload with e | ⟨v, db2⟩
    · rfl
    · exact applyPriceRangeAdjust_proposals db p.payload v db2 hr
  · rcases hr : applyNewRule db p.payload with e | ⟨v, db2⟩
    · rfl
    · exact applyNewRule_proposals db p.payload v db2 hr
  · rcases hr : applyNewCanonical db p.payload with e | ⟨v, db2⟩
    · rfl
    · exact applyNewCanonical_proposals db p.payload v db2 hr
  · rfl

lemma handle_second_approval (cfg : FeedbackConfig) (db2 : FeedbackDB)
    (pid user : String) (p2 : ProposalRow)
    (hfind : db2.proposals.find? (fun q => q.id == pid) = some p2)
    (hst : p2.status = "APPROVED") :
    handleProposalApproval cfg db2 pid user =
      (ApprovalOutcome.alreadyProcessed ("APPROVED") pid, db2) := by
  unfold handleProposalApproval
  rw [hfind]
  simp only [hst]
  rw [if_pos (show ("APPROVED" : String) ≠ "PENDING" from by decide)]

lemma handle_pending_eval (cfg : FeedbackConfig) (db : FeedbackDB)
    (pid user : String) (p : ProposalRow)
    (hfind : db.proposals.find? (fun q => q.id == pid) = some p)
    (hpend : p.status = "PENDING") :
    handleProposalApproval cfg db pid user =
      (if (!cfg.dry_run || cfg.allow_approve_in_dry_run) = true then
        (ApprovalOutcome.approved pid p.proposal_type (ApplicationResult.applied
          (applyProposal
            { db with proposals := db.proposals.map (approveUpd pid user) } p).1),
         (applyProposal
            { db with proposals := db.proposals.map (approveUpd pid user) } p).2)
      else
        (ApprovalOutcome.approved pid p.proposal_type ApplicationResult.skippedDryRun,
         { db with proposals := db.proposals.map (approveUpd pid user) })) := by
  unfold handleProposalApproval
  rw [hfind]
  simp only [hpend, ne_eq]
  simp

/-- C8 (amended): approving a PENDING proposal marks it APPROVED and, when
application is enabled, applies its effect; any subsequent approval of the
now non-PENDING proposal returns already_processed with the current status
and leaves the database (in particular the synonyms table) unchanged.
already_exists is reported only by the apply step itself, when a PENDING
NEW_SYNONYM proposal's synonym is already on file — never by the
already-processed early return. -/
theorem C8_corrected_idempotent_approval (cfg : FeedbackConfig) (db : FeedbackDB)
    (pid user : String) (p : ProposalRow)
    (hfind : db.proposals.find? (fun q => q.id == pid) = some p)
    (hpend : p.status = "PENDING") :
    (∃ app, (handleProposalApproval cfg db pid user).1 =
      ApprovalOutcome.approved pid p.proposal_type app) ∧
    (((handleProposalApproval cfg db pid user).2.proposals.find?
        (fun q => q.id == pid)).map ProposalRow.status = some ("APPROVED")) ∧
    (handleProposalApproval cfg (handleProposalApproval cfg db pid user).2 pid user =
      (ApprovalOutcome.alreadyProcessed ("APPROVED") pid,
        (handleProposalApproval cfg db pid user).2)) ∧
    ((handleProposalApproval cfg (handleProposalApproval cfg db pid user).2 pid
        user).2.synonyms = (handleProposalApproval cfg db pid user).2.synonyms) ∧
    ((!cfg.dry_run || cfg.allow_approve_in_dry_run) = true →
      ∃ r, (handleProposalApproval cfg db pid user).1 =
        ApprovalOutcome.approved pid p.proposal_type (ApplicationResult.applied r)) := by
  have hid0 := List.find?_some hfind
  have hid : (p.id == pid) = true := hid0
  have heval := handle_pending_eval cfg db pid user p hfind hpend
  have hfind1 : ({ db with proposals := db.proposals.map (approveUpd pid user) }
      : FeedbackDB).proposals.find? (fun q => q.id == pid) =
      some (approveUpd pid user p) :=
    find?_map_approveUpd pid user db.proposals p hfind
  have hst1 : (approveUpd pid user p).status = "APPROVED" :=
    approveUpd_status pid user p hid
  rcases happly : (!cfg.dry_run || cfg.allow_approve_in_dry_run) with _ | _
  · rw [happly] at heval
    rw [if_neg (by simp)] at heval
    refine ⟨⟨ApplicationResult.skippedDryRun, by rw [heval]⟩, ?_, ?_, ?_, ?_⟩
    · rw [heval]
      rw [hfind1]
      simp only [Option.map_some', hst1]
    · rw [heval]
      exact handle_second_approval cfg _ pid user (approveUpd pid user p) hfind1 hst1
    · rw [heval]
      rw [handle_second_approval cfg _ pid user (approveUpd pid user p) hfind1 hst1]
    · intro h
      exact absurd h (by simp)
  · rw [happly] at heval
    rw [if_pos rfl] at heval
    have hprops : ((applyProposal
        { db with proposals := db.proposals.map (approveUpd pid user) } p).2).proposals
        = db.proposals.map (approveUpd pid user) :=
      applyProposal_proposals _ p
    have hfind2 : ((applyProposal
        { db with proposals := db.proposals.map (approveUpd pid user) } p).2).proposals.find?
        (fun q => q.id == pid) = some (approveUpd pid user p) := by
      rw [hprops]
      exact find?_map_approveUpd pid user db.proposals p hfind
    refine ⟨⟨ApplicationResult.applied (applyProposal
        { db with proposals := db.proposals.map (approveUpd pid user) } p).1,
        by rw [heval]⟩, ?_, ?_, ?_, ?_⟩
    · rw [heval]
      rw [hfind2]
      simp only [Option.map_some', hst1]
    · rw [heval]
      exact handle_second_approval cfg _ pid user (approveUpd pid user p) hfind2 hst1
    · rw [heval]
      rw [handle_second_approval cfg _ pid user (approveUpd pid user p) hfind2 hst1]
    · intro _
      exact ⟨(applyProposal
        { db with proposals := db.proposals.map (approveUpd pid user) } p).1,
        by rw [heval]⟩

/-- C8 counterexample: a second approval attempt on an already APPROVED
NEW_SYNONYM proposal (whose synonym is already on file) returns only the
already_processed early result with the current status — it never reaches
the apply step, so no already_exists is reported. -/
theorem C8_counterexample :
    handleProposalApproval ⟨false, false⟩ dbApproved ("p1") ("u") =
      (ApprovalOutcome.alreadyProcessed ("APPROVED") ("p1"), dbApproved) ∧
    reportsAlreadyExists
      (handleProposalApproval ⟨false, false⟩ dbApproved ("p1") ("u")).1 = false := by
  constructor
  · rfl
  · rfl

/-- Witness for C8 (amended): approving the pending proposal of dbPending
and then approving it again yields already_processed on the second call
with the database unchanged. -/
theorem C8_corrected_idempotent_approval_witness :
    handleProposalApproval ⟨false, false⟩
        (handleProposalApproval ⟨false, false⟩ dbPending ("p1") ("u")).2 ("p1") ("u") =
      (ApprovalOutcome.alreadyProcessed ("APPROVED") ("p1"),
        (handleProposalApproval ⟨false, false⟩ dbPending ("p1") ("u")).2) :=
  (C8_corrected_idempotent_approval ⟨false, false⟩ dbPending ("p1") ("u")
    ⟨"p1", "NEW_SYNONYM", payloadSyn, "PENDING", none⟩ (by rfl) rfl).2.2.1

end InvoiceVerification
